import Mathlib

/-!
# Verification of the book-translator core pipeline

A shallow embedding, in Lean 4, of the core translation pipeline of the
book-translator repository: text segmentation
(`book_translator/utils/text_processing.py`), the translation-validity
heuristic (`book_translator/utils/language_detection.py`), the model-response
sanitizer (`clean_translation_response`), the cache key derivation
(`book_translator/services/cache_service.py`) and the two-stage orchestrator
(`book_translator/services/translator.py`).

Texts are modelled as `List Char` (Python `str` is a sequence of code points,
so `List Char` is an exact model).  Python regular-expression operations used
by the source are realised either by direct scanners (when the pattern is
simple) or by a small backtracking regex interpreter whose abstract syntax
mirrors the pattern strings of the source, with the flag combination
(IGNORECASE | MULTILINE | DOTALL where applicable) baked into the
translation of each pattern.  Case folding follows ASCII case folding.
-/

set_option maxHeartbeats 1000000
set_option maxRecDepth 40000

namespace BookTranslator

abbrev Chars := List Char

/-- Python whitespace characters as used by `str.strip`, `str.split()` and
regex `\s` (ASCII subset). -/
def isPyWS (c : Char) : Bool :=
  c == ' ' || c == '\t' || c == '\n' || c == '\r' || c == '\x0b' || c == '\x0c'

/-- `str.lower` (ASCII case folding). -/
def pyLower (s : Chars) : Chars := s.map Char.toLower

/-- `str.strip()`: remove leading and trailing whitespace. -/
def pyStrip (s : Chars) : Chars :=
  ((s.dropWhile isPyWS).reverse.dropWhile isPyWS).reverse

/-- `a.startswith(b)` on character lists. -/
def startsWith : Chars → Chars → Bool
  | _, [] => true
  | [], _ :: _ => false
  | c :: s, p :: ps => c == p && startsWith s ps

/-- Worker for `pySplitWs`; `acc` is the word being collected. -/
def pySplitWsAux : Chars → Chars → List Chars
  | acc, [] => if acc.isEmpty then [] else [acc]
  | acc, c :: rest =>
    if isPyWS c then
      if acc.isEmpty then pySplitWsAux [] rest else acc :: pySplitWsAux [] rest
    else pySplitWsAux (acc ++ [c]) rest

/-- `str.split()` with no separator: split on whitespace runs, dropping
empty pieces. -/
def pySplitWs (s : Chars) : List Chars := pySplitWsAux [] s

/-- Join a list of texts with a separator (`sep.join(parts)`). -/
def joinSep (sep : Chars) : List Chars → Chars
  | [] => []
  | [p] => p
  | p :: q :: rest => p ++ sep ++ joinSep sep (q :: rest)

/-- The separator `"\n\n"`. -/
def nl2 : Chars := ['\n', '\n']

/-- `text.split(sep)` for a fixed nonempty separator, here specialised to
`"\n\n"` (leftmost, non-overlapping, keeps empty pieces, like Python
`str.split` with an argument). `acc` is the piece collected so far. -/
def splitNl2Aux : Chars → Chars → List Chars
  | acc, [] => [acc]
  | acc, '\n' :: '\n' :: rest => acc :: splitNl2Aux [] rest
  | acc, c :: rest => splitNl2Aux (acc ++ [c]) rest

def splitNl2 (s : Chars) : List Chars := splitNl2Aux [] s

/-! ## `normalize_text` (text_processing.py, lines 12–27) -/

/-- `text.replace('\r\n', '\n').replace('\r', '\n')`: the two sequential
passes are equivalent to one left-to-right scan collapsing each `"\r\n"`
pair and converting every remaining `'\r'`. -/
def normEol : Chars → Chars
  | [] => []
  | '\r' :: '\n' :: rest => '\n' :: normEol rest
  | '\r' :: rest => '\n' :: normEol rest
  | c :: rest => c :: normEol rest

/-- Emit a run of `run` newlines, collapsed to two when the run has length
three or more (`re.sub(r'\n{3,}', '\n\n', text)` on a maximal run). -/
def emitNlRun (run : Nat) : Chars :=
  if run ≥ 3 then nl2 else List.replicate run '\n'

/-- Worker for the `\n{3,}` collapse: `run` counts pending newlines. -/
def collapseNlAux : Nat → Chars → Chars
  | run, [] => emitNlRun run
  | run, '\n' :: rest => collapseNlAux (run + 1) rest
  | run, c :: rest => emitNlRun run ++ c :: collapseNlAux 0 rest

def collapseNl (s : Chars) : Chars := collapseNlAux 0 s

/-- `normalize_text`: normalize line endings, collapse runs of three or
more newlines to two, and strip. -/
def normalizeText (s : Chars) : Chars := pyStrip (collapseNl (normEol s))

/-! ## `split_into_chunks` (text_processing.py, lines 30–105) -/

/-- Sentence-final punctuation of the split pattern `(?<=[.!?])\s+`. -/
def isSentPunct (c : Char) : Bool := c == '.' || c == '!' || c == '?'

/-- Whether the last character collected so far is sentence-final
punctuation (the regex lookbehind). -/
def lastIsPunct (acc : Chars) : Bool :=
  match acc.getLast? with
  | some c => isSentPunct c
  | none => false

/-- `re.split(r'(?<=[.!?])\s+', paragraph)`: a boundary is a whitespace run
immediately preceded by `.`, `!` or `?`; the whole run is consumed.  The
`skip` flag is true while consuming the remainder of a boundary's
whitespace run (during which the collected piece is empty). -/
def sentSplitAux : Bool → Chars → Chars → List Chars
  | _, acc, [] => [acc]
  | skip, acc, c :: rest =>
    if skip = true ∧ isPyWS c = true ∧ acc = [] then sentSplitAux true acc rest
    else if isPyWS c && lastIsPunct acc then acc :: sentSplitAux true [] rest
    else sentSplitAux false (acc ++ [c]) rest

def sentSplit (s : Chars) : List Chars := sentSplitAux false [] s

/-- The sentence-packing loop of `split_into_chunks` for an over-long
paragraph (source lines 66–79): state is (chunks, sentence_chunk,
sentence_length). -/
def sentLoop (maxLen : Nat) : List Chars → List Chars → Nat → List Chars → List Chars
  | chunks, schunk, _, [] =>
    if schunk = [] then chunks else chunks ++ [joinSep [' '] schunk]
  | chunks, schunk, slen, s :: rest =>
    if slen + s.length > maxLen ∧ schunk ≠ [] then
      sentLoop maxLen (chunks ++ [joinSep [' '] schunk]) [s] (s.length + 1) rest
    else
      sentLoop maxLen chunks (schunk ++ [s]) (slen + s.length + 1) rest

/-- The paragraph loop of `split_into_chunks` (source lines 51–93): state is
(chunks, current_chunk, current_length). -/
def paraLoop (maxLen : Nat) : List Chars → List Chars → Nat → List Chars → List Chars
  | chunks, cur, _, [] =>
    if cur = [] then chunks else chunks ++ [joinSep nl2 cur]
  | chunks, cur, clen, p :: rest =>
    if pyStrip p = [] then paraLoop maxLen chunks cur clen rest
    else if (pyStrip p).length > maxLen then
      paraLoop maxLen
        (sentLoop maxLen
          (if cur = [] then chunks else chunks ++ [joinSep nl2 cur])
          [] 0 (sentSplit (pyStrip p)))
        [] 0 rest
    else if clen + (pyStrip p).length + 2 > maxLen ∧ cur ≠ [] then
      paraLoop maxLen (chunks ++ [joinSep nl2 cur]) [pyStrip p] ((pyStrip p).length + 2) rest
    else
      paraLoop maxLen chunks (cur ++ [pyStrip p]) (clen + (pyStrip p).length + 2) rest

/-- `split_into_chunks(text, max_length)` (the final
`chunks if chunks else [text]`). -/
def splitIntoChunks (text : Chars) (maxLen : Nat) : List Chars :=
  if paraLoop maxLen [] [] 0 (splitNl2 text) = [] then [text]
  else paraLoop maxLen [] [] 0 (splitNl2 text)

/-! ## Basic lemmas about joining and splitting -/

theorem joinSep_cons (sep : Chars) (a : Chars) (l : List Chars) (h : l ≠ []) :
    joinSep sep (a :: l) = a ++ sep ++ joinSep sep l := by
  cases l with
  | nil => exact absurd rfl h
  | cons q t => rfl

theorem joinSep_append (sep : Chars) (l1 l2 : List Chars) (h1 : l1 ≠ []) (h2 : l2 ≠ []) :
    joinSep sep (l1 ++ l2) = joinSep sep l1 ++ sep ++ joinSep sep l2 := by
  induction l1 with
  | nil => exact absurd rfl h1
  | cons a t ih =>
    cases t with
    | nil =>
      simp only [List.singleton_append, List.nil_append]
      rw [joinSep_cons sep a l2 h2]
      rfl
    | cons b u =>
      have ht : (b :: u : List Chars) ≠ [] := by simp
      have : ((a :: b :: u : List Chars) ++ l2) = a :: ((b :: u) ++ l2) := rfl
      rw [this, joinSep_cons sep a ((b :: u) ++ l2) (by simp),
        ih ht, joinSep_cons sep a (b :: u) ht]
      simp [List.append_assoc]

theorem joinSep_append_single (sep : Chars) (l : List Chars) (x : Chars) (h : l ≠ []) :
    joinSep sep (l ++ [x]) = joinSep sep l ++ sep ++ x := by
  rw [joinSep_append sep l [x] h (by simp)]
  rfl

theorem joinSep_flatten (sep : Chars) (l1 l2 l3 : List Chars) (h2 : l2 ≠ []) :
    joinSep sep (l1 ++ joinSep sep l2 :: l3) = joinSep sep (l1 ++ l2 ++ l3) := by
  induction l1 with
  | nil =>
    cases l3 with
    | nil => simp [joinSep]
    | cons c t =>
      simp only [List.nil_append]
      rw [joinSep_cons sep _ (c :: t) (by simp),
        joinSep_append sep l2 (c :: t) h2 (by simp)]
  | cons a t ih =>
    have hl : (t ++ joinSep sep l2 :: l3) ≠ [] := by simp
    have hr : (t ++ (l2 ++ l3)) ≠ [] := by
      intro h
      rcases List.append_eq_nil.mp h with ⟨-, h'⟩
      rcases List.append_eq_nil.mp h' with ⟨h2', -⟩
      exact h2 h2'
    calc joinSep sep ((a :: t) ++ joinSep sep l2 :: l3)
        = joinSep sep (a :: (t ++ joinSep sep l2 :: l3)) := by rw [List.cons_append]
      _ = a ++ sep ++ joinSep sep (t ++ joinSep sep l2 :: l3) := joinSep_cons _ _ _ hl
      _ = a ++ sep ++ joinSep sep (t ++ (l2 ++ l3)) := by
            rw [ih, List.append_assoc t l2 l3]
      _ = joinSep sep (a :: (t ++ (l2 ++ l3))) := (joinSep_cons _ _ _ hr).symm
      _ = joinSep sep ((a :: t) ++ l2 ++ l3) := by
            simp [List.append_assoc]

theorem splitNl2Aux_ne_nil (acc s : Chars) : splitNl2Aux acc s ≠ [] := by
  induction acc, s using splitNl2Aux.induct with
  | case1 acc => simp [splitNl2Aux]
  | case2 acc rest ih => simp [splitNl2Aux]
  | case3 acc c rest h ih =>
    rw [splitNl2Aux.eq_3 acc c rest h]
    exact ih

theorem joinSep_splitNl2Aux (acc s : Chars) :
    joinSep nl2 (splitNl2Aux acc s) = acc ++ s := by
  induction acc, s using splitNl2Aux.induct with
  | case1 acc => simp [splitNl2Aux, joinSep]
  | case2 acc rest ih =>
    rw [splitNl2Aux, joinSep_cons nl2 acc _ (splitNl2Aux_ne_nil [] rest), ih]
    simp [nl2]
  | case3 acc c rest h ih =>
    rw [splitNl2Aux.eq_3 acc c rest h, ih]
    simp

/-- Joining the `"\n\n"`-separated pieces back reproduces the text. -/
theorem joinSep_splitNl2 (s : Chars) : joinSep nl2 (splitNl2 s) = s :=
  joinSep_splitNl2Aux [] s

/-! ## Irreducibility of the pieces produced by the sentence split -/

/-- The lookbehind test of the sentence-split boundary, for an optional
preceding character. -/
def punctOpt : Option Char → Bool
  | some a => isSentPunct a
  | none => false

/-- `chainOk p s`: scanning `s` with preceding character `p` meets no
sentence boundary (no whitespace character directly preceded by `.!?`). -/
def chainOk : Option Char → Chars → Bool
  | _, [] => true
  | p, c :: rest => !(isPyWS c && punctOpt p) && chainOk (some c) rest

theorem lastIsPunct_eq (acc : Chars) : lastIsPunct acc = punctOpt acc.getLast? := by
  cases h : acc.getLast? <;> simp [lastIsPunct, punctOpt, h]

/-- A boundary-free tail is scanned into a single piece. -/
theorem sentSplitAux_of_chainOk (s : Chars) :
    ∀ acc, chainOk acc.getLast? s = true → sentSplitAux false acc s = [acc ++ s] := by
  induction s with
  | nil => intro acc _; simp [sentSplitAux]
  | cons c rest ih =>
    intro acc h
    rw [chainOk, Bool.and_eq_true, Bool.not_eq_true'] at h
    obtain ⟨hb, hrest⟩ := h
    rw [sentSplitAux]
    rw [if_neg (by simp)]
    have hcond : (isPyWS c && lastIsPunct acc) = false := by
      rw [lastIsPunct_eq]; exact hb
    rw [hcond]
    simp only [Bool.false_eq_true, if_false]
    have hlast : (acc ++ [c]).getLast? = some c := by simp
    rw [ih (acc ++ [c]) (by rw [hlast]; exact hrest)]
    simp

/-- The preceding character seen after scanning `l` from `p`. -/
def lastFrom (p : Option Char) : Chars → Option Char
  | [] => p
  | c :: rest => lastFrom (some c) rest

theorem lastFrom_eq_getLast? (l : Chars) :
    ∀ p, lastFrom p l = match l.getLast? with | some a => some a | none => p := by
  induction l with
  | nil => intro p; rfl
  | cons c rest ih =>
    intro p
    rw [lastFrom, ih (some c)]
    cases rest with
    | nil => simp
    | cons b u =>
      rw [List.getLast?_cons_cons]
      cases h : (b :: u).getLast? with
      | some a => rfl
      | none => exact absurd h (by simp [List.getLast?_eq_none_iff])

theorem chainOk_append_single (l : Chars) (c : Char) :
    ∀ p, chainOk p (l ++ [c]) =
      (chainOk p l && !(isPyWS c && punctOpt (lastFrom p l))) := by
  induction l with
  | nil => intro p; simp [chainOk, lastFrom]
  | cons a t ih =>
    intro p
    rw [List.cons_append, chainOk, chainOk, ih (some a), ← Bool.and_assoc]
    rfl

theorem lastIsPunct_eq_lastFrom (acc : Chars) :
    lastIsPunct acc = punctOpt (lastFrom none acc) := by
  rw [lastIsPunct_eq, lastFrom_eq_getLast?]
  cases h : acc.getLast? <;> simp [punctOpt]

/-- Every piece emitted by the sentence split is boundary-free. -/
theorem sentSplitAux_pieces_chainOk (s : Chars) :
    ∀ (skip : Bool) (acc : Chars), chainOk none acc = true →
      ∀ p ∈ sentSplitAux skip acc s, chainOk none p = true := by
  induction s with
  | nil =>
    intro skip acc hacc p hp
    rw [sentSplitAux] at hp
    simp only [List.mem_singleton] at hp
    exact hp ▸ hacc
  | cons c rest ih =>
    intro skip acc hacc p hp
    rw [sentSplitAux] at hp
    by_cases h1 : skip = true ∧ isPyWS c = true ∧ acc = []
    · rw [if_pos h1] at hp
      exact ih true acc hacc p hp
    · rw [if_neg h1] at hp
      by_cases h2 : (isPyWS c && lastIsPunct acc) = true
      · rw [if_pos h2] at hp
        rcases List.mem_cons.mp hp with h | h
        · exact h ▸ hacc
        · exact ih true [] rfl p h
      · rw [if_neg h2] at hp
        have hf : (isPyWS c && lastIsPunct acc) = false := by
          revert h2; cases (isPyWS c && lastIsPunct acc) <;> simp
        have hacc' : chainOk none (acc ++ [c]) = true := by
          rw [chainOk_append_single, hacc, Bool.true_and, ← lastIsPunct_eq_lastFrom,
            Bool.not_eq_true', hf]
        exact ih false (acc ++ [c]) hacc' p hp

/-- A boundary-free text re-splits to itself. -/
theorem sentSplit_self_of_chainOk (s : Chars) (h : chainOk none s = true) :
    sentSplit s = [s] := by
  unfold sentSplit
  rw [sentSplitAux_of_chainOk s [] h]
  rfl

/-- Every piece of the sentence split is itself indivisible: re-splitting
returns the piece unchanged. -/
theorem sentSplit_pieces_irreducible (s : Chars) :
    ∀ p ∈ sentSplit s, sentSplit p = [p] := fun p hp =>
  sentSplit_self_of_chainOk p (sentSplitAux_pieces_chainOk s false [] rfl p hp)

/-! ## The chunk-size invariant of `split_into_chunks` -/

/-- The amended segmentation bound: a chunk either fits in `maxLen` or is a
single sentence-split piece (indivisible at sentence granularity). -/
def chunkOk (maxLen : Nat) (c : Chars) : Prop :=
  c.length ≤ maxLen ∨ sentSplit c = [c]

theorem joinSep_single (sep : Chars) (x : Chars) : joinSep sep [x] = x := rfl

theorem flushed_sentence_chunk_ok (maxLen : Nat) (schunk : List Chars) (slen : Nat)
    (hne : schunk ≠ [])
    (hs : ∀ s ∈ schunk, sentSplit s = [s])
    (hlen : slen = (joinSep [' '] schunk).length + 1)
    (hbound : 2 ≤ schunk.length → slen ≤ maxLen + 1) :
    chunkOk maxLen (joinSep [' '] schunk) := by
  match schunk, hne with
  | [s], _ =>
    right
    rw [joinSep_single]
    exact hs s (by simp)
  | s1 :: s2 :: t, _ =>
    left
    have h2 : 2 ≤ (s1 :: s2 :: t : List Chars).length := by simp
    have := hbound h2
    omega

theorem sentLoop_ok (maxLen : Nat) (ss : List Chars)
    (hss : ∀ s ∈ ss, sentSplit s = [s]) :
    ∀ chunks schunk slen,
      (∀ c ∈ chunks, chunkOk maxLen c) →
      (∀ s ∈ schunk, sentSplit s = [s]) →
      (schunk = [] → slen = 0) →
      (schunk ≠ [] → slen = (joinSep [' '] schunk).length + 1) →
      (2 ≤ schunk.length → slen ≤ maxLen + 1) →
      ∀ c ∈ sentLoop maxLen chunks schunk slen ss, chunkOk maxLen c := by
  induction ss with
  | nil =>
    intro chunks schunk slen hc hs _ hlen hbound c hmem
    rw [sentLoop] at hmem
    by_cases he : schunk = []
    · rw [if_pos he] at hmem; exact hc c hmem
    · rw [if_neg he] at hmem
      rcases List.mem_append.mp hmem with h | h
      · exact hc c h
      · rw [List.mem_singleton] at h
        subst h
        exact flushed_sentence_chunk_ok maxLen schunk slen he hs (hlen he) hbound
  | cons s rest ih =>
    intro chunks schunk slen hc hs hz hlen hbound c hmem
    have hself : sentSplit s = [s] := hss s (by simp)
    have hss' : ∀ x ∈ rest, sentSplit x = [x] := fun x hx => hss x (by simp [hx])
    rw [sentLoop] at hmem
    by_cases hg : slen + s.length > maxLen ∧ schunk ≠ []
    · rw [if_pos hg] at hmem
      refine ih hss' _ _ _ ?_ ?_ ?_ ?_ ?_ c hmem
      · intro x hx
        rcases List.mem_append.mp hx with h | h
        · exact hc x h
        · rw [List.mem_singleton] at h
          subst h
          exact flushed_sentence_chunk_ok maxLen schunk slen hg.2 hs (hlen hg.2) hbound
      · intro x hx
        rw [List.mem_singleton] at hx
        exact hx ▸ hself
      · intro h; simp at h
      · intro _; rw [joinSep_single]
      · intro h2; simp at h2
    · rw [if_neg hg] at hmem
      refine ih hss' _ _ _ hc ?_ ?_ ?_ ?_ c hmem
      · intro x hx
        rcases List.mem_append.mp hx with h | h
        · exact hs x h
        · rw [List.mem_singleton] at h
          exact h ▸ hself
      · intro h; simp at h
      · intro _
        by_cases he : schunk = []
        · subst he
          rw [List.nil_append, joinSep_single, hz rfl]
          omega
        · rw [joinSep_append_single _ _ _ he, List.length_append, List.length_append]
          have := hlen he
          simp only [List.length_cons, List.length_nil]
          omega
      · intro h2
        by_cases he : schunk = []
        · subst he; simp at h2
        · have hle : ¬ slen + s.length > maxLen := fun hgt => hg ⟨hgt, he⟩
          omega

theorem flushed_para_chunk_ok (maxLen : Nat) (cur : List Chars) (clen : Nat)
    (he : cur ≠ []) (hcur : cur ≠ [] → clen = (joinSep nl2 cur).length + 2 ∧ clen ≤ maxLen + 2) :
    chunkOk maxLen (joinSep nl2 cur) := by
  left
  obtain ⟨h1, h2⟩ := hcur he
  omega

theorem paraLoop_ok (maxLen : Nat) (ps : List Chars) :
    ∀ chunks cur clen,
      (∀ c ∈ chunks, chunkOk maxLen c) →
      (cur = [] → clen = 0) →
      (cur ≠ [] → clen = (joinSep nl2 cur).length + 2 ∧ clen ≤ maxLen + 2) →
      ∀ c ∈ paraLoop maxLen chunks cur clen ps, chunkOk maxLen c := by
  induction ps with
  | nil =>
    intro chunks cur clen hc hz hcur c hmem
    rw [paraLoop] at hmem
    by_cases he : cur = []
    · rw [if_pos he] at hmem; exact hc c hmem
    · rw [if_neg he] at hmem
      rcases List.mem_append.mp hmem with h | h
      · exact hc c h
      · rw [List.mem_singleton] at h
        exact h ▸ flushed_para_chunk_ok maxLen cur clen he hcur
  | cons p rest ih =>
    intro chunks cur clen hc hz hcur c hmem
    rw [paraLoop] at hmem
    by_cases hemp : pyStrip p = []
    · rw [if_pos hemp] at hmem
      exact ih _ _ _ hc hz hcur c hmem
    · rw [if_neg hemp] at hmem
      by_cases hbig : (pyStrip p).length > maxLen
      · rw [if_pos hbig] at hmem
        refine ih _ _ _ ?_ (fun _ => rfl) (by simp) c hmem
        refine sentLoop_ok maxLen _ (sentSplit_pieces_irreducible _) _ _ _ ?_
          (by simp) (fun _ => rfl) (by simp) (by simp)
        intro x hx
        by_cases he : cur = []
        · rw [if_pos he] at hx; exact hc x hx
        · rw [if_neg he] at hx
          rcases List.mem_append.mp hx with h | h
          · exact hc x h
          · rw [List.mem_singleton] at h
            exact h ▸ flushed_para_chunk_ok maxLen cur clen he hcur
      · rw [if_neg hbig] at hmem
        by_cases hg : clen + (pyStrip p).length + 2 > maxLen ∧ cur ≠ []
        · rw [if_pos hg] at hmem
          refine ih _ _ _ ?_ (by simp) ?_ c hmem
          · intro x hx
            rcases List.mem_append.mp hx with h | h
            · exact hc x h
            · rw [List.mem_singleton] at h
              exact h ▸ flushed_para_chunk_ok maxLen cur clen hg.2 hcur
          · intro _
            rw [joinSep_single]
            omega
        · rw [if_neg hg] at hmem
          refine ih _ _ _ hc (by simp) ?_ c hmem
          intro _
          by_cases he : cur = []
          · subst he
            rw [List.nil_append, joinSep_single, hz rfl]
            omega
          · have hle : ¬ clen + (pyStrip p).length + 2 > maxLen := fun hgt => hg ⟨hgt, he⟩
            obtain ⟨h1, h2⟩ := hcur he
            have hn2 : (nl2 : Chars).length = 2 := rfl
            rw [joinSep_append_single _ _ _ he, List.length_append, List.length_append, hn2]
            constructor <;> omega

/-! ## Structural lemmas: the loops only ever extend the chunk list -/

theorem sentLoop_extends (maxLen : Nat) (ss : List Chars) :
    ∀ chunks schunk slen, ∃ t, sentLoop maxLen chunks schunk slen ss = chunks ++ t := by
  induction ss with
  | nil =>
    intro chunks schunk slen
    rw [sentLoop]
    by_cases he : schunk = []
    · exact ⟨[], by rw [if_pos he]; simp⟩
    · exact ⟨[joinSep [' '] schunk], by rw [if_neg he]⟩
  | cons s rest ih =>
    intro chunks schunk slen
    rw [sentLoop]
    by_cases hg : slen + s.length > maxLen ∧ schunk ≠ []
    · rw [if_pos hg]
      obtain ⟨t, ht⟩ := ih (chunks ++ [joinSep [' '] schunk]) [s] (s.length + 1)
      exact ⟨[joinSep [' '] schunk] ++ t, by rw [ht, List.append_assoc]⟩
    · rw [if_neg hg]
      exact ih chunks (schunk ++ [s]) (slen + s.length + 1)

theorem paraLoop_extends (maxLen : Nat) (ps : List Chars) :
    ∀ chunks cur clen, ∃ t, paraLoop maxLen chunks cur clen ps = chunks ++ t := by
  induction ps with
  | nil =>
    intro chunks cur clen
    rw [paraLoop]
    by_cases he : cur = []
    · exact ⟨[], by rw [if_pos he]; simp⟩
    · exact ⟨[joinSep nl2 cur], by rw [if_neg he]⟩
  | cons p rest ih =>
    intro chunks cur clen
    rw [paraLoop]
    by_cases hemp : pyStrip p = []
    · rw [if_pos hemp]; exact ih _ _ _
    · rw [if_neg hemp]
      by_cases hbig : (pyStrip p).length > maxLen
      · rw [if_pos hbig]
        obtain ⟨t1, ht1⟩ := sentLoop_extends maxLen (sentSplit (pyStrip p))
          (if cur = [] then chunks else chunks ++ [joinSep nl2 cur]) [] 0
        obtain ⟨t2, ht2⟩ := ih (sentLoop maxLen
          (if cur = [] then chunks else chunks ++ [joinSep nl2 cur]) [] 0
          (sentSplit (pyStrip p))) [] 0
        rw [ht2, ht1]
        by_cases he : cur = []
        · rw [if_pos he]
          exact ⟨t1 ++ t2, by rw [List.append_assoc]⟩
        · rw [if_neg he]
          exact ⟨[joinSep nl2 cur] ++ t1 ++ t2, by simp [List.append_assoc]⟩
      · rw [if_neg hbig]
        by_cases hg : clen + (pyStrip p).length + 2 > maxLen ∧ cur ≠ []
        · rw [if_pos hg]
          obtain ⟨t, ht⟩ := ih (chunks ++ [joinSep nl2 cur]) [pyStrip p] ((pyStrip p).length + 2)
          exact ⟨[joinSep nl2 cur] ++ t, by rw [ht, List.append_assoc]⟩
        · rw [if_neg hg]
          exact ih chunks (cur ++ [pyStrip p]) (clen + (pyStrip p).length + 2)

theorem sentLoop_emits (maxLen : Nat) (ss : List Chars) :
    ∀ chunks schunk slen, schunk ≠ [] →
      chunks.length < (sentLoop maxLen chunks schunk slen ss).length := by
  induction ss with
  | nil =>
    intro chunks schunk slen hne
    rw [sentLoop, if_neg hne]
    simp
  | cons s rest ih =>
    intro chunks schunk slen hne
    rw [sentLoop]
    by_cases hg : slen + s.length > maxLen ∧ schunk ≠ []
    · rw [if_pos hg]
      obtain ⟨t, ht⟩ := sentLoop_extends maxLen rest
        (chunks ++ [joinSep [' '] schunk]) [s] (s.length + 1)
      rw [ht]
      simp
    · rw [if_neg hg]
      exact ih chunks (schunk ++ [s]) (slen + s.length + 1) (by simp)

theorem sentSplitAux_ne_nil (s : Chars) :
    ∀ (skip : Bool) (acc : Chars), sentSplitAux skip acc s ≠ [] := by
  induction s with
  | nil => intro skip acc; simp [sentSplitAux]
  | cons c rest ih =>
    intro skip acc
    rw [sentSplitAux]
    by_cases h1 : skip = true ∧ isPyWS c = true ∧ acc = []
    · rw [if_pos h1]; exact ih true acc
    · rw [if_neg h1]
      by_cases h2 : (isPyWS c && lastIsPunct acc) = true
      · rw [if_pos h2]; simp
      · rw [if_neg h2]; exact ih false (acc ++ [c])

theorem sentSplit_ne_nil (s : Chars) : sentSplit s ≠ [] :=
  sentSplitAux_ne_nil s false []

/-- The paragraph loop adds no chunk at all only when every remaining
paragraph strips to the empty text and the current chunk is empty. -/
theorem paraLoop_eq_self (maxLen : Nat) (ps : List Chars) :
    ∀ chunks cur clen, paraLoop maxLen chunks cur clen ps = chunks →
      cur = [] ∧ ∀ p ∈ ps, pyStrip p = [] := by
  induction ps with
  | nil =>
    intro chunks cur clen h
    rw [paraLoop] at h
    by_cases he : cur = []
    · exact ⟨he, by simp⟩
    · rw [if_neg he] at h
      have := congrArg List.length h
      simp at this
  | cons p rest ih =>
    intro chunks cur clen h
    rw [paraLoop] at h
    by_cases hemp : pyStrip p = []
    · rw [if_pos hemp] at h
      obtain ⟨h1, h2⟩ := ih _ _ _ h
      exact ⟨h1, by
        intro q hq
        rcases List.mem_cons.mp hq with hq | hq
        · exact hq ▸ hemp
        · exact h2 q hq⟩
    · rw [if_neg hemp] at h
      by_cases hbig : (pyStrip p).length > maxLen
      · rw [if_pos hbig] at h
        exfalso
        obtain ⟨t2, ht2⟩ := paraLoop_extends maxLen rest (sentLoop maxLen
          (if cur = [] then chunks else chunks ++ [joinSep nl2 cur]) [] 0
          (sentSplit (pyStrip p))) [] 0
        have hgrow : chunks.length < (sentLoop maxLen
            (if cur = [] then chunks else chunks ++ [joinSep nl2 cur]) [] 0
            (sentSplit (pyStrip p))).length := by
          rcases hsp : sentSplit (pyStrip p) with _ | ⟨s, rest'⟩
          · exact absurd hsp (sentSplit_ne_nil _)
          · rw [sentLoop]
            have : ¬ (0 + s.length > maxLen ∧ ([] : List Chars) ≠ []) := by simp
            rw [if_neg this]
            have h1 := sentLoop_emits maxLen rest'
              (if cur = [] then chunks else chunks ++ [joinSep nl2 cur])
              ([] ++ [s]) (0 + s.length + 1) (by simp)
            have h2 : chunks.length ≤
                (if cur = [] then chunks else chunks ++ [joinSep nl2 cur]).length := by
              by_cases he : cur = []
              · rw [if_pos he]
              · rw [if_neg he]; simp
            omega
        rw [ht2] at h
        have := congrArg List.length h
        simp at this
        omega
      · rw [if_neg hbig] at h
        by_cases hg : clen + (pyStrip p).length + 2 > maxLen ∧ cur ≠ []
        · rw [if_pos hg] at h
          exfalso
          obtain ⟨t, ht⟩ := paraLoop_extends maxLen rest
            (chunks ++ [joinSep nl2 cur]) [pyStrip p] ((pyStrip p).length + 2)
          rw [ht] at h
          have := congrArg List.length h
          simp at this
        · rw [if_neg hg] at h
          obtain ⟨h1, -⟩ := ih _ _ _ h
          exact absurd h1 (by simp)

/-! ## Whitespace lemmas for the `[text]` fallback -/

theorem mem_dropWhile_of_not_pred (q : Char → Bool) (l : Chars) (x : Char)
    (hx : x ∈ l) (hq : q x = false) : x ∈ l.dropWhile q := by
  induction l with
  | nil => cases hx
  | cons c t ih =>
    by_cases hc : q c
    · rw [List.dropWhile_cons_of_pos hc]
      rcases List.mem_cons.mp hx with h | h
      · exact absurd (h ▸ hc) (by rw [hq]; simp)
      · exact ih h
    · rw [List.dropWhile_cons_of_neg hc]
      exact hx

theorem pyStrip_mem_of_not_ws (p : Chars) (x : Char) (hx : x ∈ p)
    (hw : isPyWS x = false) : x ∈ pyStrip p := by
  unfold pyStrip
  rw [List.mem_reverse]
  refine mem_dropWhile_of_not_pred _ _ _ ?_ hw
  rw [List.mem_reverse]
  exact mem_dropWhile_of_not_pred _ _ _ hx hw

theorem all_ws_of_pyStrip_nil (p : Chars) (h : pyStrip p = []) :
    ∀ x ∈ p, isPyWS x = true := by
  intro x hx
  by_contra hw
  have := pyStrip_mem_of_not_ws p x hx (by revert hw; cases isPyWS x <;> simp)
  rw [h] at this
  cases this

theorem mem_joinSep (sep : Chars) (l : List Chars) (x : Char) :
    x ∈ joinSep sep l → (∃ p ∈ l, x ∈ p) ∨ x ∈ sep := by
  induction l with
  | nil => intro h; cases h
  | cons a t ih =>
    cases t with
    | nil =>
      intro h
      exact Or.inl ⟨a, by simp, h⟩
    | cons b u =>
      intro h
      rw [joinSep_cons _ _ _ (by simp)] at h
      rcases List.mem_append.mp h with h | h
      · rcases List.mem_append.mp h with h | h
        · exact Or.inl ⟨a, by simp, h⟩
        · exact Or.inr h
      · rcases ih h with ⟨p, hp, hxp⟩ | h
        · exact Or.inl ⟨p, by simp [hp], hxp⟩
        · exact Or.inr h

theorem ws_not_punct (a : Char) (h : isPyWS a = true) : isSentPunct a = false := by
  simp only [isPyWS, Bool.or_eq_true, beq_iff_eq] at h
  rcases h with ((((h | h) | h) | h) | h) | h <;> subst h <;> rfl

theorem chainOk_of_all_ws (s : Chars) :
    ∀ p, (∀ c ∈ s, isPyWS c = true) →
      (∀ a, p = some a → isSentPunct a = false) → chainOk p s = true := by
  induction s with
  | nil => intro p _ _; rfl
  | cons c rest ih =>
    intro p hall hp
    rw [chainOk]
    have h1 : punctOpt p = false := by
      cases p with
      | none => rfl
      | some a => exact hp a rfl
    rw [h1]
    simp only [Bool.and_false, Bool.not_false, Bool.true_and]
    refine ih (some c) (fun x hx => hall x (by simp [hx])) ?_
    intro a ha
    cases ha
    exact ws_not_punct c (hall c (by simp))

/-! ## C4 and C5 -/

/-- C4 (amended): every chunk fits in `maxLen` or is a single
sentence-split piece. -/
theorem splitIntoChunks_bound (text : Chars) (maxLen : Nat) :
    ∀ c ∈ splitIntoChunks text maxLen, c.length ≤ maxLen ∨ sentSplit c = [c] := by
  intro c hmem
  unfold splitIntoChunks at hmem
  by_cases he : paraLoop maxLen [] [] 0 (splitNl2 text) = []
  · rw [if_pos he] at hmem
    rw [List.mem_singleton] at hmem
    subst hmem
    obtain ⟨-, hall⟩ := paraLoop_eq_self maxLen (splitNl2 c) [] [] 0 he
    right
    refine sentSplit_self_of_chainOk c (chainOk_of_all_ws c none ?_ (by intro a ha; cases ha))
    intro x hx
    have hx' : x ∈ joinSep nl2 (splitNl2 c) := by
      rw [joinSep_splitNl2]; exact hx
    rcases mem_joinSep _ _ _ hx' with ⟨p, hp, hxp⟩ | hsep
    · exact all_ws_of_pyStrip_nil p (hall p hp) x hxp
    · rcases List.mem_cons.mp hsep with h | h
      · subst h; rfl
      · rcases List.mem_cons.mp h with h | h
        · subst h; rfl
        · cases h
  · rw [if_neg he] at hmem
    exact paraLoop_ok maxLen (splitNl2 text) [] [] 0 (by simp) (fun _ => rfl)
      (by simp) c hmem

/-- C5 (amended): when every paragraph is nonempty, already stripped and
fits in `maxLen`, the paragraph loop preserves the joined text exactly. -/
theorem paraLoop_join (maxLen : Nat) (ps : List Chars)
    (hps : ∀ p ∈ ps, p ≠ [] ∧ pyStrip p = p ∧ p.length ≤ maxLen) :
    ∀ chunks cur clen,
      joinSep nl2 (paraLoop maxLen chunks cur clen ps) =
        joinSep nl2 (chunks ++ cur ++ ps) := by
  induction ps with
  | nil =>
    intro chunks cur clen
    rw [paraLoop]
    by_cases he : cur = []
    · rw [if_pos he, he]
      simp
    · rw [if_neg he, List.append_nil, joinSep_flatten nl2 chunks cur [] he]
      simp
  | cons p rest ih =>
    intro chunks cur clen
    obtain ⟨hne, hstr, hlen⟩ := hps p (by simp)
    have hps' : ∀ q ∈ rest, q ≠ [] ∧ pyStrip q = q ∧ q.length ≤ maxLen :=
      fun q hq => hps q (by simp [hq])
    rw [paraLoop, hstr]
    rw [if_neg hne, if_neg (by omega)]
    by_cases hg : clen + p.length + 2 > maxLen ∧ cur ≠ []
    · rw [if_pos hg, ih hps' _ _ _]
      rw [show chunks ++ [joinSep nl2 cur] ++ [p] ++ rest =
        chunks ++ joinSep nl2 cur :: ([p] ++ rest) by simp]
      rw [joinSep_flatten nl2 chunks cur ([p] ++ rest) hg.2]
      simp [List.append_assoc]
    · rw [if_neg hg, ih hps' _ _ _]
      simp [List.append_assoc]

/-- The chunk list is nonempty whenever some paragraph survives
stripping. -/
theorem paraLoop_ne_nil_of_para (maxLen : Nat) (ps : List Chars)
    (p : Chars) (hp : p ∈ ps) (hne : pyStrip p ≠ []) :
    paraLoop maxLen [] [] 0 ps ≠ [] := by
  intro h
  obtain ⟨-, hall⟩ := paraLoop_eq_self maxLen ps [] [] 0 h
  exact hne (hall p hp)

/-- **C4** (amended).  Segmentation bound: every chunk emitted by
`split_into_chunks(text, maxLength)` has length at most `maxLength`, except
a chunk that is a single sentence-split piece (no sentence boundary inside
it) longer than `maxLength`.  There is no comma-clause fallback in the
code, so an over-long sentence is emitted whole even when it contains
comma-delimited clauses. -/
theorem c4_segmentation_bound (text : Chars) (maxLen : Nat) :
    ∀ c ∈ splitIntoChunks text maxLen, c.length ≤ maxLen ∨ sentSplit c = [c] :=
  splitIntoChunks_bound text maxLen

/-- **C4** counterexample to the claim as stated: the single sentence
`"aa, bb, cc."` (length 11) exceeds `maxLength = 10` and contains
comma-delimited clause boundaries, yet it is emitted whole rather than
being split on its clauses. -/
theorem c4_counterexample :
    splitIntoChunks "aa, bb, cc.".data 10 = ["aa, bb, cc.".data] ∧
      10 < ("aa, bb, cc.".data).length ∧ ',' ∈ "aa, bb, cc.".data := by
  exact ⟨by decide, by decide, by decide⟩

/-- Witness for `c4_segmentation_bound` at a concrete input. -/
theorem c4_witness :
    ("One.".data ∈ splitIntoChunks "One.\n\nTwo.".data 5) ∧
      (("One.".data).length ≤ 5 ∨ sentSplit "One.".data = ["One.".data]) :=
  ⟨by decide, c4_segmentation_bound "One.\n\nTwo.".data 5 "One.".data (by decide)⟩

/-- **C5** (amended).  Segmentation round-trip: joining the chunks of
`split_into_chunks(text, maxLength)` with `"\n\n"` reproduces the input
exactly whenever every `"\n\n"`-separated paragraph of the input is
nonempty, equal to its own strip, and of length at most `maxLength` — no
text is lost, duplicated or reordered.  Without these conditions the
round-trip fails even after re-normalization (per-paragraph stripping and
the space-joining of sentence pieces lose whitespace that
`normalize_text` does not collapse). -/
theorem c5_segmentation_round_trip (text : Chars) (maxLen : Nat)
    (h : ∀ p ∈ splitNl2 text, p ≠ [] ∧ pyStrip p = p ∧ p.length ≤ maxLen) :
    joinSep nl2 (splitIntoChunks text maxLen) = text := by
  unfold splitIntoChunks
  have hne : paraLoop maxLen [] [] 0 (splitNl2 text) ≠ [] := by
    rcases hsp : splitNl2 text with _ | ⟨p, rest⟩
    · exact absurd hsp (splitNl2Aux_ne_nil [] text)
    · obtain ⟨hp1, hp2, -⟩ := h p (by rw [hsp]; simp)
      exact paraLoop_ne_nil_of_para maxLen _ p (by simp) (by rw [hp2]; exact hp1)
  rw [if_neg hne, paraLoop_join maxLen (splitNl2 text) h [] [] 0]
  simpa using joinSep_splitNl2 text

/-- **C5** counterexample to the claim as stated: for the input
`"a \n\nb"` (a fixed point of `normalize_text`), joining the chunks with
`"\n\n"` and re-normalizing yields `"a\n\nb"`, which differs from the
normalized input — the paragraph's trailing space is lost. -/
theorem c5_counterexample :
    normalizeText "a \n\nb".data = "a \n\nb".data ∧
      normalizeText (joinSep nl2 (splitIntoChunks "a \n\nb".data 100)) = "a\n\nb".data ∧
      "a\n\nb".data ≠ "a \n\nb".data :=
  ⟨by decide, by decide, by decide⟩

/-- Witness for `c5_segmentation_round_trip` at a concrete input. -/
theorem c5_witness :
    (∀ p ∈ splitNl2 "One.\n\nTwo.".data, p ≠ [] ∧ pyStrip p = p ∧ p.length ≤ 100) ∧
      joinSep nl2 (splitIntoChunks "One.\n\nTwo.".data 100) = "One.\n\nTwo.".data :=
  ⟨by decide, c5_segmentation_round_trip "One.\n\nTwo.".data 100 (by decide)⟩


/-! ## Language markers and the translation validator
(`language_detection.py`, `config/constants.py`) -/

/-- The apostrophe character, used in French/Italian marker tokens. -/
def ap : Char := Char.ofNat 39

inductive MarkerType where
  | word
  | character
deriving DecidableEq

structure LangInfo where
  mtype : MarkerType
  markers : List Chars
  min_markers : Nat

/-- `LANGUAGE_MARKERS` (config/constants.py): per-language closed-class
marker tokens, script type and minimum-marker threshold. -/
def LANGUAGE_MARKERS : List (String × LangInfo) := [
  ("en", ⟨MarkerType.word, [
    " the ".data, " a ".data, " an ".data, " this ".data, " that ".data, " these ".data,
    " those ".data, " some ".data, " any ".data, " no ".data, " every ".data, " each ".data,
    " all ".data, " both ".data, " i ".data, " you ".data, " he ".data, " she ".data,
    " it ".data, " we ".data, " they ".data, " me ".data, " him ".data, " her ".data,
    " us ".data, " them ".data, " my ".data, " your ".data, " his ".data, " its ".data,
    " our ".data, " their ".data, " mine ".data, " yours ".data, " who ".data, " whom ".data,
    " whose ".data, " which ".data, " what ".data, " is ".data, " are ".data, " was ".data,
    " were ".data, " be ".data, " been ".data, " being ".data, " have ".data, " has ".data,
    " had ".data, " having ".data, " do ".data, " does ".data, " did ".data, " will ".data,
    " would ".data, " shall ".data, " should ".data, " can ".data, " could ".data,
    " may ".data, " might ".data, " must ".data, " need ".data, " dare ".data, " ought ".data,
    " said ".data, " says ".data, " told ".data, " asked ".data, " answered ".data,
    " replied ".data, " went ".data, " came ".data, " got ".data, " made ".data, " took ".data,
    " gave ".data, " knew ".data, " thought ".data, " felt ".data, " saw ".data,
    " heard ".data, " seemed ".data, " looked ".data, " in ".data, " on ".data, " at ".data,
    " by ".data, " for ".data, " with ".data, " about ".data, " against ".data,
    " between ".data, " into ".data, " through ".data, " during ".data, " before ".data,
    " after ".data, " above ".data, " below ".data, " from ".data, " up ".data, " down ".data,
    " out ".data, " off ".data, " over ".data, " under ".data, " again ".data, " and ".data,
    " but ".data, " or ".data, " nor ".data, " so ".data, " yet ".data, " because ".data,
    " although ".data, " while ".data, " if ".data, " unless ".data, " until ".data,
    " when ".data, " where ".data, " whether ".data, " however ".data, " therefore ".data,
    " moreover ".data, " not ".data, " very ".data, " really ".data, " just ".data,
    " also ".data, " only ".data, " even ".data, " still ".data, " already ".data,
    " always ".data, " never ".data, " often ".data, " sometimes ".data, " usually ".data,
    " here ".data, " there ".data, " now ".data, " then ".data, " of the ".data,
    " to the ".data, " in the ".data, " on the ".data, " at the ".data, " and the ".data,
    " for the ".data, " with the ".data, " from the ".data, " there is ".data,
    " there are ".data, " there was ".data, " there were ".data
    ], 3⟩),
  ("es", ⟨MarkerType.word, [
    " el ".data, " la ".data, " los ".data, " las ".data, " un ".data, " una ".data,
    " unos ".data, " unas ".data, " de ".data, " del ".data, " al ".data, " en ".data,
    " con ".data, " por ".data, " para ".data, " sin ".data, " sobre ".data, " entre ".data,
    " hacia ".data, " desde ".data, " hasta ".data, " según ".data, " durante ".data,
    " mediante ".data, " contra ".data, " ante ".data, " bajo ".data, " yo ".data, " tú ".data,
    " él ".data, " ella ".data, " usted ".data, " nosotros ".data, " ellos ".data,
    " ellas ".data, " ustedes ".data, " me ".data, " te ".data, " le ".data, " nos ".data,
    " les ".data, " lo ".data, " se ".data, " mi ".data, " tu ".data, " su ".data,
    " mis ".data, " tus ".data, " sus ".data, " que ".data, " quien ".data, " cual ".data,
    " cuyo ".data, " donde ".data, " como ".data, " cuando ".data, " es ".data, " son ".data,
    " era ".data, " eran ".data, " fue ".data, " fueron ".data, " ser ".data, " sido ".data,
    " está ".data, " están ".data, " estaba ".data, " estuvo ".data, " estar ".data,
    " estado ".data, " ha ".data, " han ".data, " había ".data, " hubo ".data, " haber ".data,
    " habido ".data, " tiene ".data, " tienen ".data, " tenía ".data, " tuvo ".data,
    " tener ".data, " tenido ".data, " y ".data, " e ".data, " o ".data, " u ".data,
    " pero ".data, " sino ".data, " aunque ".data, " porque ".data, " no ".data, " sí ".data,
    " muy ".data, " más ".data, " menos ".data, " bien ".data, " mal ".data, " de la ".data,
    " de los ".data, " de las ".data, " en el ".data, " en la ".data
    ], 3⟩),
  ("fr", ⟨MarkerType.word, [
    " le ".data, " la ".data, " les ".data, " un ".data, " une ".data, " des ".data,
    " du ".data, " de la ".data, (" l".data ++ [ap]), (" d".data ++ [ap]), (" n".data ++ [ap]),
    (" s".data ++ [ap]), (" c".data ++ [ap]), (" j".data ++ [ap]), (" m".data ++ [ap]),
    (" t".data ++ [ap]), (" qu".data ++ [ap]), " de ".data, " à ".data, " en ".data,
    " dans ".data, " sur ".data, " sous ".data, " avec ".data, " sans ".data, " pour ".data,
    " par ".data, " chez ".data, " vers ".data, " entre ".data, " contre ".data, " je ".data,
    " tu ".data, " il ".data, " elle ".data, " on ".data, " nous ".data, " vous ".data,
    " ils ".data, " elles ".data, " est ".data, " sont ".data, " était ".data,
    " étaient ".data, " fut ".data, " être ".data, " été ".data, " a ".data, " ont ".data,
    " avait ".data, " avaient ".data, " eut ".data, " avoir ".data, " eu ".data, " et ".data,
    " ou ".data, " mais ".data, " donc ".data, " car ".data, " ni ".data, " or ".data,
    " ne ".data, " pas ".data, " plus ".data, " jamais ".data, " rien ".data,
    " personne ".data, (" c".data ++ [ap] ++ "est ".data),
    (" c".data ++ [ap] ++ "était ".data), " il y a ".data, " il y avait ".data
    ], 3⟩),
  ("de", ⟨MarkerType.word, [
    " der ".data, " die ".data, " das ".data, " den ".data, " dem ".data, " des ".data,
    " ein ".data, " eine ".data, " einen ".data, " einem ".data, " einer ".data,
    " eines ".data, " in ".data, " an ".data, " auf ".data, " für ".data, " mit ".data,
    " von ".data, " zu ".data, " bei ".data, " ich ".data, " du ".data, " er ".data,
    " sie ".data, " es ".data, " wir ".data, " ihr ".data, " ist ".data, " sind ".data,
    " war ".data, " waren ".data, " sein ".data, " gewesen ".data, " hat ".data,
    " haben ".data, " hatte ".data, " hatten ".data, " gehabt ".data, " und ".data,
    " oder ".data, " aber ".data, " denn ".data, " weil ".data, " dass ".data, " daß ".data,
    " nicht ".data, " auch ".data, " nur ".data, " noch ".data, " schon ".data, " sehr ".data
    ], 3⟩),
  ("it", ⟨MarkerType.word, [
    " il ".data, " lo ".data, " la ".data, " i ".data, " gli ".data, " le ".data, " un ".data,
    " uno ".data, " una ".data, (" un".data ++ [ap]), " del ".data, " dello ".data,
    " della ".data, (" l".data ++ [ap]), (" d".data ++ [ap]), (" c".data ++ [ap]),
    (" n".data ++ [ap]), (" s".data ++ [ap]), " di ".data, " a ".data, " da ".data,
    " in ".data, " con ".data, " su ".data, " per ".data, " tra ".data, " fra ".data,
    " io ".data, " tu ".data, " lui ".data, " lei ".data, " noi ".data, " voi ".data,
    " loro ".data, " è ".data, " sono ".data, " era ".data, " erano ".data, " fu ".data,
    " furono ".data, " essere ".data, " stato ".data, " e ".data, " o ".data, " ma ".data,
    " però ".data, " perché ".data, " poiché ".data, " quando ".data, " non ".data,
    " sì ".data, " molto ".data, " poco ".data, " più ".data, " meno ".data, " bene ".data,
    " male ".data
    ], 3⟩),
  ("pt", ⟨MarkerType.word, [
    " o ".data, " a ".data, " os ".data, " as ".data, " um ".data, " uma ".data, " uns ".data,
    " umas ".data, " do ".data, " da ".data, " dos ".data, " das ".data, " no ".data,
    " na ".data, " nos ".data, " nas ".data, " de ".data, " em ".data, " com ".data,
    " por ".data, " para ".data, " sem ".data, " sob ".data, " sobre ".data, " eu ".data,
    " tu ".data, " ele ".data, " ela ".data, " você ".data, " nós ".data, " eles ".data,
    " elas ".data, " é ".data, " são ".data, " era ".data, " eram ".data, " foi ".data,
    " foram ".data, " ser ".data, " sido ".data, " e ".data, " ou ".data, " mas ".data,
    " porém ".data, " contudo ".data, " todavia ".data, " porque ".data, " não ".data,
    " sim ".data, " muito ".data, " pouco ".data, " mais ".data, " menos ".data, " bem ".data,
    " mal ".data
    ], 3⟩),
  ("ru", ⟨MarkerType.word, [
    " в ".data, " на ".data, " с ".data, " к ".data, " у ".data, " о ".data, " за ".data,
    " из ".data, " по ".data, " от ".data, " я ".data, " ты ".data, " он ".data, " она ".data,
    " оно ".data, " мы ".data, " вы ".data, " они ".data, " это ".data, " этот ".data,
    " эта ".data, " эти ".data, " тот ".data, " та ".data, " те ".data, " был ".data,
    " была ".data, " было ".data, " были ".data, " есть ".data, " быть ".data, " будет ".data,
    " и ".data, " а ".data, " но ".data, " или ".data, " да ".data, " ни ".data, " же ".data,
    " ли ".data, " не ".data, " ещё ".data, " уже ".data, " очень ".data, " так ".data,
    " как ".data, " тоже ".data, " также ".data
    ], 3⟩),
  ("zh", ⟨MarkerType.character, [
    "的".data, "了".data, "是".data, "在".data, "有".data, "和".data, "与".data, "或".data, "但".data,
    "而".data, "我".data, "你".data, "他".data, "她".data, "它".data, "们".data, "这".data, "那".data,
    "什么".data, "怎么".data, "不".data, "也".data, "都".data, "就".data, "还".data, "又".data, "才".data,
    "已".data, "很".data, "太".data, "着".data, "过".data, "地".data, "得".data, "吗".data, "呢".data,
    "吧".data, "啊".data, "呀".data, "哦".data, "如果".data, "虽然".data, "但是".data, "因为".data,
    "所以".data, "而且".data, "或者".data, "不过".data
    ], 5⟩),
  ("ja", ⟨MarkerType.character, [
    "の".data, "は".data, "が".data, "を".data, "に".data, "で".data, "と".data, "も".data, "や".data,
    "か".data, "です".data, "ます".data, "でした".data, "ました".data, "である".data, "ではない".data, "ない".data,
    "なかった".data, "ある".data, "あった".data, "いる".data, "いた".data, "この".data, "その".data, "あの".data,
    "どの".data, "これ".data, "それ".data, "あれ".data, "どれ".data, "という".data, "として".data, "について".data,
    "によって".data, "に対して".data
    ], 5⟩),
  ("ko", ⟨MarkerType.character, [
    "은".data, "는".data, "이".data, "가".data, "을".data, "를".data, "의".data, "에".data, "에서".data,
    "로".data, "이다".data, "입니다".data, "이에요".data, "예요".data, "였다".data, "였습니다".data, "하다".data,
    "합니다".data, "해요".data, "했다".data, "했습니다".data, "하는".data, "있다".data, "있습니다".data,
    "있어요".data, "없다".data, "없습니다".data, "없어요".data, "그리고".data, "그러나".data, "하지만".data,
    "그래서".data, "왜냐하면".data, "만약".data
    ], 5⟩)
]

def lookupLang (code : String) : Option LangInfo :=
  (LANGUAGE_MARKERS.find? (fun e => e.1 = code)).map (fun e => e.2)

/-- `haystack.count(needle)` : number of non-overlapping occurrences,
scanning left to right (Python `str.count`; the needle is never empty in
this code base). -/
def countSub (sub : Chars) : Chars → Nat
  | [] => 0
  | c :: rest =>
    if startsWith (c :: rest) sub ∧ sub ≠ [] then
      1 + countSub sub ((c :: rest).drop sub.length)
    else countSub sub rest
termination_by s => s.length
decreasing_by
  · rename_i h
    have hs : sub.length ≥ 1 := by
      cases sub with
      | nil => exact absurd rfl h.2
      | cons a t => simp
    simp only [List.length_drop, List.length_cons]
    omega
  · simp

structure MarkerResult where
  count : Nat
  found : List Chars
  ratio : ℚ

/-- `detect_language_markers(text, language)` (language_detection.py,
lines 10–45). -/
def detectLanguageMarkers (text : Chars) (language : String) : MarkerResult :=
  match lookupLang language with
  | none => ⟨0, [], 0⟩
  | some info =>
    let textLower :=
      if info.mtype = MarkerType.word then [' '] ++ pyLower text ++ [' ']
      else pyLower text
    let folded := info.markers.foldl
      (fun (acc : Nat × List Chars) m =>
        let occurrences := countSub (pyLower m) textLower
        if occurrences > 0 then (acc.1 + occurrences, acc.2 ++ [pyStrip m]) else acc)
      (0, [])
    let textLength :=
      if info.mtype = MarkerType.word then (pySplitWs text).length else text.length
    ⟨folded.1, folded.2, (folded.1 : ℚ) / (max textLength 1 : ℚ)⟩

/-- `' '.join(text.lower().split())` — the normalization used for the
identical-text check. -/
def pyNormWords (s : Chars) : Chars := joinSep [' '] (pySplitWs (pyLower s))

/-- The word-overlap rejection of `is_likely_translated` (lines 121–132):
`|origWords ∩ transWords| / |origWords| > similarity_threshold`.  Word sets
are modelled as deduplicated lists; the division is exact rational
arithmetic in place of Python floats. -/
def similarityReject (origNorm transNorm : Chars) (thr : ℚ) : Bool :=
  let origWords := (pySplitWs origNorm).dedup
  let transWords := (pySplitWs transNorm).dedup
  if origWords.length > 0 then
    let common := origWords.filter (fun w => w ∈ transWords)
    decide (((common.length : ℚ) / (origWords.length : ℚ)) > thr)
  else false

/-- The residual-source-language rejection of `is_likely_translated`
(lines 134–149): length-scaled marker threshold. -/
def sourceMarkerReject (translated : Chars) (sourceLang : String) : Bool :=
  match lookupLang sourceLang with
  | none => false
  | some info =>
    let sourceCount := (detectLanguageMarkers translated sourceLang).count
    let wordCount :=
      if info.mtype = MarkerType.word then (pySplitWs translated).length
      else translated.length
    let threshold :=
      if info.mtype = MarkerType.word then
        max (info.min_markers + 3) (min 10 (wordCount / 12))
      else
        max (info.min_markers + 4) (min 15 (wordCount / 25))
    decide (sourceCount > threshold)

/-- The missing-target-language rejection of `is_likely_translated`
(lines 151–157). -/
def targetMarkerReject (translated : Chars) (targetLang : String) : Bool :=
  match lookupLang targetLang with
  | none => false
  | some info =>
    let targetCount := (detectLanguageMarkers translated targetLang).count
    decide (targetCount < info.min_markers ∧ translated.length > 100)

/-- `is_likely_translated(original, translated, source_lang, target_lang,
similarity_threshold=0.65)` (language_detection.py, lines 82–159). -/
def isLikelyTranslated (original translated : Chars)
    (sourceLang targetLang : String) (thr : ℚ := 13 / 20) : Bool :=
  if translated = [] ∨ original = [] then false
  else if sourceLang = targetLang then true
  else if translated.length < 50 then true
  else if pyNormWords original = pyNormWords translated then false
  else if (if ¬ (sourceLang = "zh" ∨ sourceLang = "ja" ∨ sourceLang = "ko") then
      similarityReject (pyNormWords original) (pyNormWords translated) thr
    else false) then false
  else if sourceMarkerReject translated sourceLang then false
  else if targetMarkerReject translated targetLang then false
  else true

/-! ## C6 and C7 -/

/-- **C6** counterexample to the claim as stated: the spec's own example
`is_likely_translated("The house is old.", "The house is old.", "en",
"es")` returns `true`, not `false` — the text is 17 characters long and the
under-50-characters rule fires before the identical-text check. -/
theorem c6_counterexample :
    isLikelyTranslated "The house is old.".data "The house is old.".data "en" "es" = true := by
  decide

/-- **C6** (amended).  The identical-echo rejection holds only for
translations of length at least 50: for nonempty texts whose
whitespace-collapsed lower-cased forms coincide, if the translated text has
at least 50 characters then `is_likely_translated(original, translated,
"en", "es")` returns `false`. -/
theorem c6_identical_rejected (original translated : Chars)
    (ho : original ≠ []) (ht : translated ≠ []) (hlen : 50 ≤ translated.length)
    (heq : pyNormWords original = pyNormWords translated) :
    isLikelyTranslated original translated "en" "es" = false := by
  unfold isLikelyTranslated
  rw [if_neg (by simp [ho, ht]), if_neg (by decide), if_neg (by omega), if_pos heq]

/-- Witness for `c6_identical_rejected` at a concrete 54-character input. -/
theorem c6_witness :
    50 ≤ ("The old house stood silent on the hill above the town.".data).length ∧
      isLikelyTranslated "The old house stood silent on the hill above the town.".data
        "The old house stood silent on the hill above the town.".data "en" "es" = false :=
  ⟨by decide,
    c6_identical_rejected _ _ (by decide) (by decide) (by decide) rfl⟩

/-- **C7** counterexample to the claim as stated: for an empty original
`X = ""` and nonempty `Y`, `is_likely_translated(X, Y, "en", "en")` returns
`false` — the `if not translated or not original` guard also rejects an
empty *original*, before the same-language rule can fire. -/
theorem c7_counterexample :
    isLikelyTranslated [] "Hola".data "en" "en" = false := by
  decide

/-- **C7** (amended).  Same-language pair always passes for nonempty
texts: for every nonempty original `X` and nonempty translated `Y`,
`is_likely_translated(X, Y, "en", "en")` returns `true` (only the
empty-text rule precedes the source-equals-target rule). -/
theorem c7_same_language_passes (X Y : Chars) (hX : X ≠ []) (hY : Y ≠ []) :
    isLikelyTranslated X Y "en" "en" = true := by
  unfold isLikelyTranslated
  rw [if_neg (by simp [hX, hY]), if_pos rfl]

/-- Witness for `c7_same_language_passes` at a concrete input. -/
theorem c7_witness :
    isLikelyTranslated "Hello".data "Hola".data "en" "en" = true :=
  c7_same_language_passes "Hello".data "Hola".data (by decide) (by decide)

/-! ## Cache key derivation (`cache_service.py`, lines 42–52) -/

/-- The pre-hash key string
`f"{text}:{source_lang}:{target_lang}:{model}:{context_hash}"`. -/
def generateHashInput (text sourceLang targetLang model contextHash : Chars) : Chars :=
  text ++ [':'] ++ sourceLang ++ [':'] ++ targetLang ++ [':'] ++ model ++ [':'] ++ contextHash

/-- `TranslationCache._generate_hash`, with SHA-256 abstracted as a
function `h` on texts (`hashlib.sha256(key).hexdigest()`). -/
def generateHash (h : Chars → Chars)
    (text sourceLang targetLang model contextHash : Chars) : Chars :=
  h (generateHashInput text sourceLang targetLang model contextHash)

theorem colon_split_inj (a : Chars) : ∀ (b x y : Chars), ':' ∉ a → ':' ∉ b →
    a ++ ':' :: x = b ++ ':' :: y → a = b ∧ x = y := by
  induction a with
  | nil =>
    intro b x y _ hb h
    cases b with
    | nil => simpa using h
    | cons d u =>
      rw [List.nil_append, List.cons_append] at h
      have hd : d = ':' := (List.cons_eq_cons.mp h).1.symm
      exact absurd (hd ▸ List.mem_cons_self d u) hb
  | cons c t ih =>
    intro b x y ha hb h
    cases b with
    | nil =>
      rw [List.nil_append, List.cons_append] at h
      have hc : c = ':' := (List.cons_eq_cons.mp h).1
      exact absurd (hc ▸ List.mem_cons_self c t) ha
    | cons d u =>
      rw [List.cons_append, List.cons_append] at h
      obtain ⟨hcd, htail⟩ := List.cons_eq_cons.mp h
      have ha' : ':' ∉ t := fun hm => ha (List.mem_cons_of_mem c hm)
      have hb' : ':' ∉ u := fun hm => hb (List.mem_cons_of_mem d hm)
      obtain ⟨h1, h2⟩ := ih u x y ha' hb' htail
      exact ⟨by rw [hcd, h1], h2⟩

/-- **C9** (amended).  Content addressing is injective provided the first
four key components contain no `':'`: the key preimage joins the five
inputs with `':'`, so for any injective hash (in particular SHA-256 under
the collision-freeness assumption), equal cache keys force equal inputs
whenever `text`, `sourceLang`, `targetLang` and `modelStageTag` are
colon-free (the trailing `contextHash` may be arbitrary).  Without the
colon-freeness proviso the claim fails, because `':'` also occurs inside
key components. -/
theorem c9_cache_key_injective (h : Chars → Chars) (hinj : Function.Injective h)
    (t1 s1 l1 m1 c1 t2 s2 l2 m2 c2 : Chars)
    (ht1 : ':' ∉ t1) (hs1 : ':' ∉ s1) (hl1 : ':' ∉ l1) (hm1 : ':' ∉ m1)
    (ht2 : ':' ∉ t2) (hs2 : ':' ∉ s2) (hl2 : ':' ∉ l2) (hm2 : ':' ∉ m2)
    (hk : generateHash h t1 s1 l1 m1 c1 = generateHash h t2 s2 l2 m2 c2) :
    t1 = t2 ∧ s1 = s2 ∧ l1 = l2 ∧ m1 = m2 ∧ c1 = c2 := by
  have heq := hinj hk
  simp only [generateHashInput, List.append_assoc, List.singleton_append] at heq
  obtain ⟨e1, heq⟩ := colon_split_inj t1 t2 _ _ ht1 ht2 heq
  obtain ⟨e2, heq⟩ := colon_split_inj s1 s2 _ _ hs1 hs2 heq
  obtain ⟨e3, heq⟩ := colon_split_inj l1 l2 _ _ hl1 hl2 heq
  obtain ⟨e4, e5⟩ := colon_split_inj m1 m2 _ _ hm1 hm2 heq
  exact ⟨e1, e2, e3, e4, e5⟩

/-- **C9** counterexample to the claim as stated: two distinct input
tuples — `("a:b", "c", …)` and `("a", "b:c", …)` — produce the same key
preimage, hence the same SHA-256 key; a key collision does not imply the
five inputs are identical. -/
theorem c9_counterexample :
    generateHashInput "a:b".data "c".data "t".data "m".data "x".data =
      generateHashInput "a".data "b:c".data "t".data "m".data "x".data ∧
      "a:b".data ≠ "a".data :=
  ⟨by decide, by decide⟩

/-- Witness for `c9_cache_key_injective` at concrete colon-free inputs
(with `h = id`, which is injective). -/
theorem c9_witness :
    "t".data = "t".data ∧ "s".data = "s".data ∧ "l".data = "l".data ∧
      "m".data = "m".data ∧ "c".data = "c".data :=
  c9_cache_key_injective id (fun _ _ hh => hh)
    "t".data "s".data "l".data "m".data "c".data
    "t".data "s".data "l".data "m".data "c".data
    (by decide) (by decide) (by decide) (by decide)
    (by decide) (by decide) (by decide) (by decide) rfl

/-! ## A small regex interpreter for the sanitizer patterns

`clean_translation_response` applies a fixed list of `re.sub(pattern, '',
text)` calls with flags IGNORECASE | MULTILINE (| DOTALL for the phase-2
list).  The patterns use only literals, the classes `\s` `\n` `[^\n]`
`[^\)]` `[a-z]` `[A-Z]` `[-]` `[*]`, greedy/lazy star, plus, option,
alternation of literals, the anchors `^` `$` `\Z` and one lookahead.  The
interpreter below implements exactly these constructs with Python's
backtracking priority (so the matched span of each `re.sub` agrees), with
IGNORECASE realised as ASCII case folding, MULTILINE baked into the `^`/`$`
constructors and DOTALL baked into the choice of `.` class per pattern. -/

/-- Character classes occurring in the sanitizer patterns.  Under
IGNORECASE, `[a-z]` and `[A-Z]` both match any ASCII letter (`alpha`). -/
inductive CSpec where
  | anyc                      -- `.` with DOTALL
  | nonNl                     -- `.` without DOTALL, and `[^\n]`
  | wsc                       -- `\s`
  | nlc                       -- `\n`
  | alpha                     -- `[a-z]` / `[A-Z]` under IGNORECASE
  | chars (cs : List Char)    -- small positive class, e.g. `[-]`, `[*]`
  | notChars (cs : List Char) -- small negated class, e.g. `[^\)]`
deriving DecidableEq

def CSpec.matches : CSpec → Char → Bool
  | .anyc, _ => true
  | .nonNl, c => !(c == '\n')
  | .wsc, c => isPyWS c
  | .nlc, c => c == '\n'
  | .alpha, c => c.isAlpha
  | .chars cs, c => cs.contains c
  | .notChars cs, c => !(cs.contains c)

/-- Regular expressions over the constructs used by the sanitizer. -/
inductive RE where
  | eps
  | rlit (s : Chars)          -- case-insensitive literal
  | one (c : CSpec)
  | seq (a b : RE)
  | alt (a b : RE)
  | star (c : CSpec)          -- greedy `X*`
  | starL (c : CSpec)         -- lazy `X*?`
  | plus (c : CSpec)          -- greedy `X+`
  | optR (a : RE)             -- greedy `X?`
  | bol                       -- `^` with MULTILINE
  | eolM                      -- `$` with MULTILINE
  | eos                       -- `\Z`
  | look (a : RE)             -- lookahead `(?= )`

/-- ASCII-case-insensitive character comparison (`re.IGNORECASE`). -/
def ciEq (a b : Char) : Bool := a.toLower == b.toLower

/-- Consume a case-insensitive literal; returns the new preceding
character and the rest. -/
def litMatch : Chars → Option Char → Chars → Option (Option Char × Chars)
  | [], p, s => some (p, s)
  | _ :: _, _, [] => none
  | l :: ls, _, c :: cs => if ciEq c l then litMatch ls (some c) cs else none

/-- Greedy star over a character class, in backtracking priority order
(longest first).  `k` receives the preceding character and the rest. -/
def starTryG (cs : CSpec) (p : Option Char) (s : Chars)
    (k : Option Char → Chars → Option Chars) : Option Chars :=
  match s with
  | [] => k p []
  | c :: rest =>
    if cs.matches c then
      match starTryG cs (some c) rest k with
      | some r => some r
      | none => k p (c :: rest)
    else k p (c :: rest)

/-- Lazy star over a character class (shortest first). -/
def starTryL (cs : CSpec) (p : Option Char) (s : Chars)
    (k : Option Char → Chars → Option Chars) : Option Chars :=
  match k p s with
  | some r => some r
  | none =>
    match s with
    | [] => none
    | c :: rest => if cs.matches c then starTryL cs (some c) rest k else none

/-- The backtracking matcher: `p` is the character just before the current
position (for the MULTILINE `^`), `k` the continuation.  Returns the first
success in Python's backtracking priority order. -/
def reM : RE → Option Char → Chars → (Option Char → Chars → Option Chars) → Option Chars
  | .eps, p, s, k => k p s
  | .rlit l, p, s, k =>
    match litMatch l p s with
    | some (p', s') => k p' s'
    | none => none
  | .one c, _, s, k =>
    match s with
    | [] => none
    | ch :: t => if c.matches ch then k (some ch) t else none
  | .seq a b, p, s, k => reM a p s (fun p' s' => reM b p' s' k)
  | .alt a b, p, s, k =>
    match reM a p s k with
    | some r => some r
    | none => reM b p s k
  | .star c, p, s, k => starTryG c p s k
  | .starL c, p, s, k => starTryL c p s k
  | .plus c, _, s, k =>
    match s with
    | [] => none
    | ch :: t => if c.matches ch then starTryG c (some ch) t k else none
  | .optR a, p, s, k =>
    match reM a p s k with
    | some r => some r
    | none => k p s
  | .bol, p, s, k => if p = none ∨ p = some '\n' then k p s else none
  | .eolM, p, s, k => if s = [] ∨ s.head? = some '\n' then k p s else none
  | .eos, p, s, k => if s = [] then k p s else none
  | .look a, p, s, k =>
    match reM a p s (fun _ _ => some []) with
    | some _ => k p s
    | none => none

def reSeq (rs : List RE) : RE := rs.foldr RE.seq RE.eps

/-- Try to match `r` at the current position; on success return the rest
of the input after the matched span. -/
def reMatchAt (r : RE) (p : Option Char) (s : Chars) : Option Chars :=
  reM r p s (fun _ rest => some rest)

/-- The character preceding the position right after a match of `s`
minus `rem` (the last character of the matched span). -/
def prevAfterMatch (p : Option Char) (s rem : Chars) : Option Char :=
  match (s.take (s.length - rem.length)).getLast? with
  | some a => some a
  | none => p

/-- `re.sub(r, '', s)`: delete every non-overlapping match, scanning left
to right.  The fuel is the input length (each step consumes at least one
character; a zero-width match is treated as no match, which none of the
sanitizer patterns can produce). -/
def subAllGo (r : RE) : Nat → Option Char → Chars → Chars
  | 0, _, s => s
  | _ + 1, _, [] => []
  | fuel + 1, p, c :: rest =>
    match reMatchAt r p (c :: rest) with
    | some rem =>
      if rem.length < (c :: rest).length then
        subAllGo r fuel (prevAfterMatch p (c :: rest) rem) rem
      else c :: subAllGo r fuel (some c) rest
    | none => c :: subAllGo r fuel (some c) rest

def subAll (r : RE) (s : Chars) : Chars := subAllGo r s.length none s

/-! ## `clean_translation_response` (text_processing.py, lines 108–250) -/

/-- Case-insensitive `startswith` (for locating tags). -/
def startsWithCI : Chars → Chars → Bool
  | _, [] => true
  | [], _ :: _ => false
  | c :: s, p :: ps => ciEq c p && startsWithCI s ps

/-- Index of the first case-insensitive occurrence of `pat`. -/
def findSubCI (pat : Chars) : Chars → Option Nat
  | [] => if pat = [] then some 0 else none
  | c :: rest =>
    if startsWithCI (c :: rest) pat then some 0
    else
      match findSubCI pat rest with
      | some i => some (i + 1)
      | none => none

/-- `re.sub(r'<tag>.*?</tag>', '', s, flags=DOTALL|IGNORECASE)`: repeatedly
remove the span from the first `<tag>` to the first following `</tag>`;
when the first `<tag>` has no closing tag after it, nothing matches. -/
def removeTagBlocksGo (openT closeT : Chars) : Nat → Chars → Chars
  | 0, s => s
  | fuel + 1, s =>
    match findSubCI openT s with
    | none => s
    | some i =>
      match findSubCI closeT (s.drop (i + openT.length)) with
      | none => s
      | some j =>
        s.take i ++
          removeTagBlocksGo openT closeT fuel
            ((s.drop (i + openT.length)).drop (j + closeT.length))

def removeTagBlocks (openT closeT : Chars) (s : Chars) : Chars :=
  removeTagBlocksGo openT closeT s.length s

/-- `re.sub(r'<tag>.*$', '', s, flags=DOTALL|IGNORECASE)`: truncate at the
first occurrence of the opening tag. -/
def removeUnclosedTag (openT : Chars) (s : Chars) : Chars :=
  match findSubCI openT s with
  | none => s
  | some i => s.take i

/-- Phase 1: strip reasoning/thinking tag blocks, then unterminated
trailing tags (source lines 127–136). -/
def phase1Tags (s : Chars) : Chars :=
  removeUnclosedTag "<thinking>".data
    (removeUnclosedTag "<think>".data
      (removeTagBlocks "<reflection>".data "</reflection>".data
        (removeTagBlocks "<reasoning>".data "</reasoning>".data
          (removeTagBlocks "<thinking>".data "</thinking>".data
            (removeTagBlocks "<think>".data "</think>".data s)))))

/-- The lookahead `(?=\n[A-Z]|\n\n|\Z)` (with IGNORECASE, `[A-Z]` matches
any ASCII letter). -/
def lookNlAlphaOrBlankOrEnd : RE :=
  RE.look (RE.alt (reSeq [RE.one .nlc, RE.one .alpha])
    (RE.alt (reSeq [RE.one .nlc, RE.one .nlc]) RE.eos))

/-- `unwanted_patterns` (source lines 142–192), flags
IGNORECASE | MULTILINE | DOTALL, in source order. -/
def unwantedPatterns : List RE := [
  -- r'IMPORTANT:\s*Return ONLY the translation[^\n]*\n*'
  reSeq [RE.rlit "IMPORTANT:".data, RE.star .wsc, RE.rlit "Return ONLY the translation".data,
    RE.star .nonNl, RE.star .nlc],
  -- r'IMPORTANT:\s*Devolver SOLO la traducción[^\n]*\n*'
  reSeq [RE.rlit "IMPORTANT:".data, RE.star .wsc, RE.rlit "Devolver SOLO la traducción".data,
    RE.star .nonNl, RE.star .nlc],
  -- r'IMPORTANTE:\s*Devolver SOLO la traducción[^\n]*\n*'
  reSeq [RE.rlit "IMPORTANTE:".data, RE.star .wsc, RE.rlit "Devolver SOLO la traducción".data,
    RE.star .nonNl, RE.star .nlc],
  -- r'IMPORTANTE:\s*Devuelve SOLO la traducción[^\n]*\n*'
  reSeq [RE.rlit "IMPORTANTE:".data, RE.star .wsc, RE.rlit "Devuelve SOLO la traducción".data,
    RE.star .nonNl, RE.star .nlc],
  -- r'IMPORTANTE:\s*Return ONLY[^\n]*\n*'
  reSeq [RE.rlit "IMPORTANTE:".data, RE.star .wsc, RE.rlit "Return ONLY".data,
    RE.star .nonNl, RE.star .nlc],
  -- r'Return ONLY the translation[^\n]*\n*'
  reSeq [RE.rlit "Return ONLY the translation".data, RE.star .nonNl, RE.star .nlc],
  -- r'Devolver SOLO la traducción[^\n]*\n*'
  reSeq [RE.rlit "Devolver SOLO la traducción".data, RE.star .nonNl, RE.star .nlc],
  -- r'No repita contenido previo[^\n]*\n*'
  reSeq [RE.rlit "No repita contenido previo".data, RE.star .nonNl, RE.star .nlc],
  -- r'Do not repeat previous content[^\n]*\n*'
  reSeq [RE.rlit "Do not repeat previous content".data, RE.star .nonNl, RE.star .nlc],
  -- r'TEXT TO TRANSLATE:.*?\n+'
  reSeq [RE.rlit "TEXT TO TRANSLATE:".data, RE.starL .anyc, RE.plus .nlc],
  -- r'TEXTO A TRADUCIR:.*?\n+'
  reSeq [RE.rlit "TEXTO A TRADUCIR:".data, RE.starL .anyc, RE.plus .nlc],
  -- r'ORIGINAL TEXT:.*?\n+'
  reSeq [RE.rlit "ORIGINAL TEXT:".data, RE.starL .anyc, RE.plus .nlc],
  -- r'TEXTO ORIGINAL:.*?\n+'
  reSeq [RE.rlit "TEXTO ORIGINAL:".data, RE.starL .anyc, RE.plus .nlc],
  -- r'CONTEXT \(previous translation[^\)]*\):.*?\n+'
  reSeq [RE.rlit "CONTEXT (previous translation".data, RE.star (.notChars [')']),
    RE.rlit "):".data, RE.starL .anyc, RE.plus .nlc],
  -- r'CONTEXTO \(traducción anterior[^\)]*\):.*?\n+'
  reSeq [RE.rlit "CONTEXTO (traducción anterior".data, RE.star (.notChars [')']),
    RE.rlit "):".data, RE.starL .anyc, RE.plus .nlc],
  -- r'REQUIREMENTS:.*?(?=\n[A-Z]|\n\n|\Z)'
  reSeq [RE.rlit "REQUIREMENTS:".data, RE.starL .anyc, lookNlAlphaOrBlankOrEnd],
  -- r'REQUISITOS:.*?(?=\n[A-Z]|\n\n|\Z)'
  reSeq [RE.rlit "REQUISITOS:".data, RE.starL .anyc, lookNlAlphaOrBlankOrEnd],
  -- r'GENRE:.*?\n+'
  reSeq [RE.rlit "GENRE:".data, RE.starL .anyc, RE.plus .nlc],
  -- r'GÉNERO:.*?\n+'
  reSeq [RE.rlit "GÉNERO:".data, RE.starL .anyc, RE.plus .nlc],
  -- r'^\s*Here is the translation:?\s*\n*'
  reSeq [RE.bol, RE.star .wsc, RE.rlit "Here is the translation".data,
    RE.optR (RE.rlit ":".data), RE.star .wsc, RE.star .nlc],
  -- r'^\s*Here\'s the translation:?\s*\n*'
  reSeq [RE.bol, RE.star .wsc, RE.rlit ("Here".data ++ [ap] ++ "s the translation".data),
    RE.optR (RE.rlit ":".data), RE.star .wsc, RE.star .nlc],
  -- r'^\s*Aquí está la traducción:?\s*\n*'
  reSeq [RE.bol, RE.star .wsc, RE.rlit "Aquí está la traducción".data,
    RE.optR (RE.rlit ":".data), RE.star .wsc, RE.star .nlc],
  -- r'^\s*La traducción es:?\s*\n*'
  reSeq [RE.bol, RE.star .wsc, RE.rlit "La traducción es".data,
    RE.optR (RE.rlit ":".data), RE.star .wsc, RE.star .nlc],
  -- r'^\s*Translation:?\s*\n*'
  reSeq [RE.bol, RE.star .wsc, RE.rlit "Translation".data,
    RE.optR (RE.rlit ":".data), RE.star .wsc, RE.star .nlc],
  -- r'^\s*Traducción:?\s*\n*'
  reSeq [RE.bol, RE.star .wsc, RE.rlit "Traducción".data,
    RE.optR (RE.rlit ":".data), RE.star .wsc, RE.star .nlc],
  -- r'^\s*Translated text:?\s*\n*'
  reSeq [RE.bol, RE.star .wsc, RE.rlit "Translated text".data,
    RE.optR (RE.rlit ":".data), RE.star .wsc, RE.star .nlc],
  -- r'^\s*Texto traducido:?\s*\n*'
  reSeq [RE.bol, RE.star .wsc, RE.rlit "Texto traducido".data,
    RE.optR (RE.rlit ":".data), RE.star .wsc, RE.star .nlc],
  -- r'^\s*\*\*Translation:?\*\*\s*\n*'
  reSeq [RE.bol, RE.star .wsc, RE.rlit "**Translation".data, RE.optR (RE.rlit ":".data),
    RE.rlit "**".data, RE.star .wsc, RE.star .nlc],
  -- r'^\s*\*\*Traducción:?\*\*\s*\n*'
  reSeq [RE.bol, RE.star .wsc, RE.rlit "**Traducción".data, RE.optR (RE.rlit ":".data),
    RE.rlit "**".data, RE.star .wsc, RE.star .nlc],
  -- r'^\s*---+\s*\n*'
  reSeq [RE.bol, RE.star .wsc, RE.rlit "--".data, RE.plus (.chars ['-']),
    RE.star .wsc, RE.star .nlc],
  -- r'^\s*\*\*\*+\s*\n*'
  reSeq [RE.bol, RE.star .wsc, RE.rlit "**".data, RE.plus (.chars ['*']),
    RE.star .wsc, RE.star .nlc],
  -- r'^\s*```[a-z]*\s*\n*'
  reSeq [RE.bol, RE.star .wsc, RE.rlit "```".data, RE.star .alpha,
    RE.star .wsc, RE.star .nlc],
  -- r'\s*```\s*$'
  reSeq [RE.star .wsc, RE.rlit "```".data, RE.star .wsc, RE.eolM],
  -- r'\n+\*?\*?Note:.*$'
  reSeq [RE.plus .nlc, RE.optR (RE.rlit "*".data), RE.optR (RE.rlit "*".data),
    RE.rlit "Note:".data, RE.star .anyc, RE.eolM],
  -- r'\n+\*?\*?Nota:.*$'
  reSeq [RE.plus .nlc, RE.optR (RE.rlit "*".data), RE.optR (RE.rlit "*".data),
    RE.rlit "Nota:".data, RE.star .anyc, RE.eolM],
  -- r'\n+\[Note:.*?\]'
  reSeq [RE.plus .nlc, RE.rlit "[Note:".data, RE.starL .anyc, RE.rlit "]".data],
  -- r'\n+\[Nota:.*?\]'
  reSeq [RE.plus .nlc, RE.rlit "[Nota:".data, RE.starL .anyc, RE.rlit "]".data],
  -- r'\n+---+\s*\n+.*$'
  reSeq [RE.plus .nlc, RE.rlit "--".data, RE.plus (.chars ['-']), RE.star .wsc,
    RE.plus .nlc, RE.star .anyc, RE.eolM]
]

/-- `context_markers` (source lines 201–206), flags IGNORECASE | MULTILINE
(no DOTALL, so `.` is `[^\n]`). -/
def contextMarkers : List RE := [
  -- r'^.*?(?:for continuity|para continuidad):?\s*\n+'
  reSeq [RE.bol, RE.starL .nonNl,
    RE.alt (RE.rlit "for continuity".data) (RE.rlit "para continuidad".data),
    RE.optR (RE.rlit ":".data), RE.star .wsc, RE.plus .nlc],
  -- r'^.*?(?:previous translation|traducción anterior):?\s*\n+'
  reSeq [RE.bol, RE.starL .nonNl,
    RE.alt (RE.rlit "previous translation".data) (RE.rlit "traducción anterior".data),
    RE.optR (RE.rlit ":".data), RE.star .wsc, RE.plus .nlc],
  -- r'INICIOS?\s*\n+'
  reSeq [RE.rlit "INICIO".data, RE.optR (RE.rlit "S".data), RE.star .wsc, RE.plus .nlc],
  -- r'BEGINNINGS?\s*\n+'
  reSeq [RE.rlit "BEGINNING".data, RE.optR (RE.rlit "S".data), RE.star .wsc, RE.plus .nlc]
]

/-- Phase 2 (source lines 194–195): apply each unwanted pattern in order. -/
def phase2Unwanted (s : Chars) : Chars :=
  unwantedPatterns.foldl (fun acc r => subAll r acc) s

/-- Phase 3 (source lines 208–209). -/
def phase3Markers (s : Chars) : Chars :=
  contextMarkers.foldl (fun acc r => subAll r acc) s

/-- Phase 4 (source lines 213–221): strip one layer of wrapping quotes. -/
def phase4Quotes (t : Chars) : Chars :=
  if t.length > 2 then
    let t1 := if startsWith t ['"'] ∧ t.getLast? = some '"' then (t.drop 1).dropLast else t
    let t2 := if startsWith t1 [ap] ∧ t1.getLast? = some ap then (t1.drop 1).dropLast else t1
    if startsWith t2 ['«'] ∧ t2.getLast? = some '»' then (t2.drop 1).dropLast else t2
  else t

/-- `prev_lines[-(i+1):]` etc.: the last `n` elements. -/
def lastN {α : Type} (n : Nat) (l : List α) : List α := l.drop (l.length - n)

/-- The first loop of phase 5 (source lines 228–232): check whether the
translation starts with the last `i+1` lines of the previous chunk, for
`i = 0 .. min 5 (len prev_lines) - 1`, stripping the first match found. -/
def phase5LinesGo (prevLines : List Chars) (translation : Chars) : Nat → Nat → Chars
  | _, 0 => translation
  | i, remaining + 1 =>
    if (pyStrip (joinSep ['\n'] (lastN (i + 1) prevLines))).length > 50 ∧
        startsWith translation (pyStrip (joinSep ['\n'] (lastN (i + 1) prevLines))) then
      pyStrip (translation.drop (pyStrip (joinSep ['\n'] (lastN (i + 1) prevLines))).length)
    else phase5LinesGo prevLines translation (i + 1) remaining

/-- The second loop of phase 5 (source lines 235–242): shrinking tail
segments of the previous chunk's last line, `check_len` from
`len(last_prev_line)` down in steps of 10 while `> 30`. -/
def phase5SegGo (lastLine translation : Chars) : Nat → Nat → Chars
  | _, 0 => translation
  | checkLen, fuel + 1 =>
    if checkLen > 30 then
      if startsWith translation (lastN checkLen lastLine) then
        pyStrip (translation.drop (lastN checkLen lastLine).length)
      else phase5SegGo lastLine translation (checkLen - 10) fuel
    else translation

/-- `str.split('\n')` (keeps empty pieces). -/
def splitCharAux (sep : Char) : Chars → Chars → List Chars
  | acc, [] => [acc]
  | acc, c :: rest =>
    if c == sep then acc :: splitCharAux sep [] rest
    else splitCharAux sep (acc ++ [c]) rest

def splitChar (sep : Char) (s : Chars) : List Chars := splitCharAux sep [] s

/-- Phase 5 (source lines 223–242): remove leading duplication of the
previous chunk. -/
def phase5Repetition (translation previousChunk : Chars) : Chars :=
  let prevLines := splitChar '\n' (pyStrip previousChunk)
  let t1 := phase5LinesGo prevLines translation 0 (min 5 prevLines.length)
  if prevLines ≠ [] then
    let lastPrevLine := pyStrip (prevLines.getLast?.getD [])
    if lastPrevLine.length > 30 then
      phase5SegGo lastPrevLine t1 lastPrevLine.length (lastPrevLine.length + 1)
    else t1
  else t1

/-- Phases 1–4 of `clean_translation_response` (independent of the
previous chunk). -/
def cleanPhases14 (t : Chars) : Chars :=
  phase4Quotes (pyStrip (phase3Markers (pyStrip (phase2Unwanted
    (pyStrip (phase1Tags (pyStrip t)))))))

/-- `clean_translation_response(translation, previous_chunk)`. -/
def cleanTranslationResponse (translation previousChunk : Chars) : Chars :=
  if translation = [] then []
  else if previousChunk ≠ [] ∧ previousChunk.length > 50 then
    pyStrip (phase5Repetition (cleanPhases14 translation) previousChunk)
  else pyStrip (cleanPhases14 translation)

/-! ## C8 and C10 -/

/-- **C8** counterexample to the claim as stated: the sanitizer is not
idempotent.  For the raw response `""hello""` the first pass strips one
layer of wrapping double quotes, leaving `"hello"` — text whose first and
last characters are matching quote characters — and the second pass strips
another layer, giving `hello`. -/
theorem c8_counterexample :
    cleanTranslationResponse (cleanTranslationResponse "\"\"hello\"\"".data []) [] ≠
      cleanTranslationResponse "\"\"hello\"\"".data [] ∧
      cleanTranslationResponse "\"\"hello\"\"".data [] = "\"hello\"".data ∧
      cleanTranslationResponse "\"hello\"".data [] = "hello".data :=
  ⟨by decide, by decide, by decide⟩

/-- **C8** (amended).  Cleaning is idempotent exactly on the inputs the
first pass leaves unchanged: whenever
`clean_translation_response(x, "") = x`, a second application returns the
same text.  Unconditional idempotence fails: a pass that strips a layer of
wrapping quotes can expose another strippable layer
(`c8_counterexample`). -/
theorem c8_idempotent_on_fixpoints (x : Chars)
    (h : cleanTranslationResponse x [] = x) :
    cleanTranslationResponse (cleanTranslationResponse x []) [] =
      cleanTranslationResponse x [] := by rw [h]; exact h

/-- Witness for `c8_idempotent_on_fixpoints` at a concrete input. -/
theorem c8_witness :
    cleanTranslationResponse "Hola mundo.".data [] = "Hola mundo.".data ∧
      cleanTranslationResponse (cleanTranslationResponse "Hola mundo.".data []) [] =
        cleanTranslationResponse "Hola mundo.".data [] :=
  ⟨by decide, c8_idempotent_on_fixpoints "Hola mundo.".data (by decide)⟩

/-- **C10** (confirmed).  A short previous chunk is ignored by the
sanitizer: for every raw response `x` and every `previous_chunk` `p` with
`len(p) ≤ 50`, `clean_translation_response(x, p) =
clean_translation_response(x, "")` — the leading-duplication-removal phase
runs only when the raw previous chunk is longer than 50 characters. -/
theorem c10_short_previous_ignored (x p : Chars) (h : p.length ≤ 50) :
    cleanTranslationResponse x p = cleanTranslationResponse x [] := by
  unfold cleanTranslationResponse
  by_cases hx : x = []
  · rw [if_pos hx, if_pos hx]
  · rw [if_neg hx, if_neg hx,
      if_neg (fun hc : p ≠ [] ∧ p.length > 50 => absurd hc.2 (by omega)),
      if_neg (by simp : ¬(([] : Chars) ≠ [] ∧ ([] : Chars).length > 50))]

/-- Witness for `c10_short_previous_ignored` at a concrete input. -/
theorem c10_witness :
    ("previo".data).length ≤ 50 ∧
      cleanTranslationResponse "Hola.".data "previo".data =
        cleanTranslationResponse "Hola.".data [] :=
  ⟨by decide, c10_short_previous_ignored "Hola.".data "previo".data (by decide)⟩

/-! ## The two-stage orchestrator (`services/translator.py`)

The external model client is modelled as a scripted stream of responses
consumed in call order (an exhausted stream behaves as a failed call); the
SQLite cache as an association list keyed by the five-component tuple that
`_generate_hash` hashes (equivalent to content addressing for an injective
hash); `_get_context_hash`'s truncated SHA-256 as an abstract function
parameter, with the empty-previous-chunk special case kept explicit.
Sleeps and log output are not modelled. -/

/-- The result of `OllamaClient.generate`. -/
structure GenResponse where
  success : Bool
  text : Chars
  error : Chars
deriving DecidableEq

abbrev ModelStream := List GenResponse

/-- One call to `self.client.generate(...)`: pop the next scripted
response. -/
def popResponse : ModelStream → GenResponse × ModelStream
  | [] => (⟨false, [], "no response".data⟩, [])
  | r :: rest => (r, rest)

/-- The failure sentinel prefix tested by `startswith('[TRANSLATION_FAILED')`. -/
def failSentinelPrefix : Chars := "[TRANSLATION_FAILED".data

/-- `f"[TRANSLATION_FAILED: {chunk[:50]}...]"` (source line 177). -/
def sentinel1 (chunk : Chars) : Chars :=
  "[TRANSLATION_FAILED: ".data ++ chunk.take 50 ++ "...]".data

/-- `BookTranslator._translate_chunk_stage1` (source lines 127–177): the
retry loop, counted by attempts remaining; on exhaustion the sentinel is
returned. -/
def stage1Loop (chunk : Chars) (src tgt : String) (previous : Chars) :
    Nat → ModelStream → Chars × ModelStream
  | 0, ms => (sentinel1 chunk, ms)
  | n + 1, ms =>
    let r := (popResponse ms).1
    let ms' := (popResponse ms).2
    if r.success = true ∧ r.text ≠ [] then
      if isLikelyTranslated chunk (cleanTranslationResponse r.text previous) src tgt then
        (cleanTranslationResponse r.text previous, ms')
      else stage1Loop chunk src tgt previous n ms'
    else stage1Loop chunk src tgt previous n ms'

/-- `BookTranslator._translate_chunk_stage2` (source lines 179–229): a
model failure is retried; a response that fails validation returns the
draft immediately; on retry exhaustion the draft is returned. -/
def stage2Loop (original draft : Chars) (src tgt : String) :
    Nat → ModelStream → Chars × ModelStream
  | 0, ms => (draft, ms)
  | n + 1, ms =>
    let r := (popResponse ms).1
    let ms' := (popResponse ms).2
    if r.success = true ∧ r.text ≠ [] then
      if isLikelyTranslated original (cleanTranslationResponse r.text []) src tgt then
        (cleanTranslationResponse r.text [], ms')
      else (draft, ms')
    else stage2Loop original draft src tgt n ms'

/-- A row of the `translation_cache` table, as returned by
`TranslationCache.get`. -/
structure CacheEntry where
  translated_text : Chars
  machine_translation : Chars
deriving DecidableEq

/-- The five inputs of `_generate_hash`. -/
abbrev CacheKey := Chars × String × String × String × Chars

abbrev CacheStore := List (CacheKey × CacheEntry)

def cacheGet (st : CacheStore) (k : CacheKey) : Option CacheEntry :=
  (st.find? (fun e => e.1 = k)).map (fun e => e.2)

/-- `INSERT OR REPLACE` — last writer wins. -/
def cacheSet (st : CacheStore) (k : CacheKey) (e : CacheEntry) : CacheStore :=
  (k, e) :: st.filter (fun x => ¬ x.1 = k)

/-- The stage-1 cache-hit decision of `translate_text` (source lines
293–314): the sentinel test reads `translated_text`, the value used is
`machine_translation or translated_text`, and the validator is re-run on
that value; any failure falls through to a fresh model translation. -/
def stage1CacheHit (cached : Option CacheEntry) (chunk : Chars) (src tgt : String) :
    Option Chars :=
  match cached with
  | none => none
  | some e =>
    if startsWith e.translated_text failSentinelPrefix then none
    else if isLikelyTranslated chunk
        (if e.machine_translation ≠ [] then e.machine_translation else e.translated_text)
        src tgt then
      some (if e.machine_translation ≠ [] then e.machine_translation else e.translated_text)
    else none

/-- The stage-2 cache-hit decision of `translate_text` (source lines
368–390): sentinel test and validation both on `translated_text`. -/
def stage2CacheHit (cached : Option CacheEntry) (chunk : Chars) (src tgt : String) :
    Option Chars :=
  match cached with
  | none => none
  | some e =>
    if startsWith e.translated_text failSentinelPrefix then none
    else if isLikelyTranslated chunk e.translated_text src tgt then
      some e.translated_text
    else none

/-- A `TranslationProgress` record (models/translation.py) as yielded by
`translate_text`; `progress` is exact rational arithmetic in place of the
Python float. -/
structure TranslationProgress where
  progress : ℚ
  stage : String
  original_text : Chars
  machine_translation : Chars
  translated_text : Option Chars
  current_chunk : Nat
  total_chunks : Nat

/-- State threaded through the stage-1 loop of `translate_text`. -/
structure Stage1Acc where
  drafts : List Chars
  cache : CacheStore
  ms : ModelStream
  recs : List TranslationProgress

/-- One iteration of the stage-1 `for i, chunk in enumerate(chunks)` loop
(source lines 282–347). -/
def stage1Step (mr : Nat) (model src tgt : String) (ctxHash : Chars → Chars)
    (chunksJoined : Chars) (totalChunks i : Nat) (chunk : Chars)
    (acc : Stage1Acc) : Stage1Acc :=
  let previous := (acc.drafts.getLast?).getD []
  let ctx := if previous = [] then [] else ctxHash previous
  let key : CacheKey := (chunk, src, tgt, model ++ "_stage1", ctx)
  match stage1CacheHit (cacheGet acc.cache key) chunk src tgt with
  | some draft =>
    { drafts := acc.drafts ++ [draft], cache := acc.cache, ms := acc.ms,
      recs := acc.recs ++ [⟨(((i + 1 : Nat) : ℚ) / ((totalChunks * 2 : Nat) : ℚ)) * 100,
        "primary_translation", chunksJoined, joinSep nl2 (acc.drafts ++ [draft]), none,
        i + 1, totalChunks * 2⟩] }
  | none =>
    let draft := (stage1Loop chunk src tgt previous mr acc.ms).1
    let ms' := (stage1Loop chunk src tgt previous mr acc.ms).2
    let cache' :=
      if startsWith draft failSentinelPrefix then acc.cache
      else cacheSet acc.cache key ⟨draft, draft⟩
    { drafts := acc.drafts ++ [draft], cache := cache', ms := ms',
      recs := acc.recs ++ [⟨(((i + 1 : Nat) : ℚ) / ((totalChunks * 2 : Nat) : ℚ)) * 100,
        "primary_translation", chunksJoined, joinSep nl2 (acc.drafts ++ [draft]), none,
        i + 1, totalChunks * 2⟩] }

def stage1Go (mr : Nat) (model src tgt : String) (ctxHash : Chars → Chars)
    (chunksJoined : Chars) (totalChunks : Nat) :
    Nat → List Chars → Stage1Acc → Stage1Acc
  | _, [], acc => acc
  | i, chunk :: rest, acc =>
    stage1Go mr model src tgt ctxHash chunksJoined totalChunks (i + 1) rest
      (stage1Step mr model src tgt ctxHash chunksJoined totalChunks i chunk acc)

/-- State threaded through the stage-2 loop of `translate_text`. -/
structure Stage2Acc where
  finals : List Chars
  cache : CacheStore
  ms : ModelStream
  recs : List TranslationProgress

/-- One iteration of the stage-2 `for i, (chunk, draft) in
enumerate(zip(chunks, draft_translations))` loop (source lines 357–429):
an invalidated or missing cache entry leads to the sentinel-skip test and
then a fresh refinement call. -/
def stage2Step (mr : Nat) (model src tgt : String) (ctxHash : Chars → Chars)
    (chunksJoined draftsJoined : Chars) (totalChunks i : Nat)
    (chunk draft : Chars) (acc : Stage2Acc) : Stage2Acc :=
  let previousFinal := (acc.finals.getLast?).getD []
  let ctx := if previousFinal = [] then [] else ctxHash previousFinal
  let key : CacheKey := (chunk, src, tgt, model ++ "_stage2", ctx)
  match stage2CacheHit (cacheGet acc.cache key) chunk src tgt with
  | some fin =>
    { finals := acc.finals ++ [fin], cache := acc.cache, ms := acc.ms,
      recs := acc.recs ++ [⟨(((i + 1 + totalChunks : Nat) : ℚ) /
          ((totalChunks * 2 : Nat) : ℚ)) * 100,
        "reflection_improvement", chunksJoined, draftsJoined,
        some (joinSep nl2 (acc.finals ++ [fin])), i + 1 + totalChunks, totalChunks * 2⟩] }
  | none =>
    if startsWith draft failSentinelPrefix then
      { finals := acc.finals ++ [draft], cache := acc.cache, ms := acc.ms,
        recs := acc.recs ++ [⟨(((i + 1 + totalChunks : Nat) : ℚ) /
            ((totalChunks * 2 : Nat) : ℚ)) * 100,
          "reflection_improvement", chunksJoined, draftsJoined,
          some (joinSep nl2 (acc.finals ++ [draft])), i + 1 + totalChunks, totalChunks * 2⟩] }
    else
      let fin := (stage2Loop chunk draft src tgt mr acc.ms).1
      let ms' := (stage2Loop chunk draft src tgt mr acc.ms).2
      let cache' :=
        if startsWith fin failSentinelPrefix then acc.cache
        else cacheSet acc.cache key ⟨fin, draft⟩
      { finals := acc.finals ++ [fin], cache := cache', ms := ms',
        recs := acc.recs ++ [⟨(((i + 1 + totalChunks : Nat) : ℚ) /
            ((totalChunks * 2 : Nat) : ℚ)) * 100,
          "reflection_improvement", chunksJoined, draftsJoined,
          some (joinSep nl2 (acc.finals ++ [fin])), i + 1 + totalChunks, totalChunks * 2⟩] }

def stage2Go (mr : Nat) (model src tgt : String) (ctxHash : Chars → Chars)
    (chunksJoined draftsJoined : Chars) (totalChunks : Nat) :
    Nat → List (Chars × Chars) → Stage2Acc → Stage2Acc
  | _, [], acc => acc
  | i, (chunk, draft) :: rest, acc =>
    stage2Go mr model src tgt ctxHash chunksJoined draftsJoined totalChunks (i + 1) rest
      (stage2Step mr model src tgt ctxHash chunksJoined draftsJoined totalChunks i
        chunk draft acc)

/-- The full outcome of one `translate_text` run: the yielded progress
records, the per-chunk stage-1 and stage-2 results, and the final cache
and model-stream states. -/
structure RunResult where
  records : List TranslationProgress
  drafts : List Chars
  finals : List Chars
  cache : CacheStore
  ms : ModelStream

/-- `BookTranslator.translate_text(text, source_lang, target_lang)`
(source lines 237–451): normalize and split, stage 1 over all chunks,
stage 2 over `(chunk, draft)` pairs, then the final `completed` record. -/
def translateText (mr maxLen : Nat) (model : String) (ctxHash : Chars → Chars)
    (cache0 : CacheStore) (ms0 : ModelStream) (text : Chars)
    (src tgt : String) : RunResult :=
  let chunks := splitIntoChunks (normalizeText text) maxLen
  let total := chunks.length
  let cj := joinSep nl2 chunks
  let s1 := stage1Go mr model src tgt ctxHash cj total 0 chunks ⟨[], cache0, ms0, []⟩
  let dj := joinSep nl2 s1.drafts
  let s2 := stage2Go mr model src tgt ctxHash cj dj total 0 (chunks.zip s1.drafts)
    ⟨[], s1.cache, s1.ms, []⟩
  ⟨s1.recs ++ s2.recs ++
      [⟨100, "completed", cj, dj, some (joinSep nl2 s2.finals), total * 2, total * 2⟩],
    s1.drafts, s2.finals, s2.cache, s2.ms⟩

/-! ## C1: stage-1 failure handling -/

theorem stage1Step_lengths (mr : Nat) (model src tgt : String) (ctxHash : Chars → Chars)
    (cj : Chars) (total i : Nat) (chunk : Chars) (acc : Stage1Acc) :
    (stage1Step mr model src tgt ctxHash cj total i chunk acc).drafts.length =
        acc.drafts.length + 1 ∧
      (stage1Step mr model src tgt ctxHash cj total i chunk acc).recs.length =
        acc.recs.length + 1 := by
  simp only [stage1Step]
  split <;> simp

theorem stage2Step_lengths (mr : Nat) (model src tgt : String) (ctxHash : Chars → Chars)
    (cj dj : Chars) (total i : Nat) (chunk draft : Chars) (acc : Stage2Acc) :
    (stage2Step mr model src tgt ctxHash cj dj total i chunk draft acc).finals.length =
        acc.finals.length + 1 ∧
      (stage2Step mr model src tgt ctxHash cj dj total i chunk draft acc).recs.length =
        acc.recs.length + 1 := by
  simp only [stage2Step]
  split
  · simp
  · split <;> simp

theorem stage1Go_lengths (mr : Nat) (model src tgt : String) (ctxHash : Chars → Chars)
    (cj : Chars) (total : Nat) (cs : List Chars) :
    ∀ (i : Nat) (acc : Stage1Acc),
      (stage1Go mr model src tgt ctxHash cj total i cs acc).drafts.length =
          acc.drafts.length + cs.length ∧
        (stage1Go mr model src tgt ctxHash cj total i cs acc).recs.length =
          acc.recs.length + cs.length := by
  induction cs with
  | nil => intro i acc; simp [stage1Go]
  | cons c rest ih =>
    intro i acc
    rw [stage1Go]
    obtain ⟨h1, h2⟩ := ih (i + 1) (stage1Step mr model src tgt ctxHash cj total i c acc)
    obtain ⟨g1, g2⟩ := stage1Step_lengths mr model src tgt ctxHash cj total i c acc
    rw [h1, h2, g1, g2]
    simp
    omega

theorem stage2Go_lengths (mr : Nat) (model src tgt : String) (ctxHash : Chars → Chars)
    (cj dj : Chars) (total : Nat) (ps : List (Chars × Chars)) :
    ∀ (i : Nat) (acc : Stage2Acc),
      (stage2Go mr model src tgt ctxHash cj dj total i ps acc).finals.length =
          acc.finals.length + ps.length ∧
        (stage2Go mr model src tgt ctxHash cj dj total i ps acc).recs.length =
          acc.recs.length + ps.length := by
  induction ps with
  | nil => intro i acc; simp [stage2Go]
  | cons p rest ih =>
    intro i acc
    rw [stage2Go]
    obtain ⟨h1, h2⟩ := ih (i + 1) (stage2Step mr model src tgt ctxHash cj dj total i p.1 p.2 acc)
    obtain ⟨g1, g2⟩ := stage2Step_lengths mr model src tgt ctxHash cj dj total i p.1 p.2 acc
    rw [h1, h2, g1, g2]
    simp
    omega

/-- **C1** (amended).  Stage-1 retry exhaustion is not fatal in
`BookTranslator.translate_text`: there is no failure exit at all.  For every
input, the run processes every chunk in both stages (one progress record
per chunk per stage, one draft and one final per chunk) and always ends
with a `completed` record — a chunk that exhausts its retries contributes
the sentinel draft `[TRANSLATION_FAILED: …]` and the run continues. -/
theorem c1_stage1_failure_not_fatal (mr maxLen : Nat) (model : String)
    (ctxHash : Chars → Chars) (cache0 : CacheStore) (ms0 : ModelStream)
    (text : Chars) (src tgt : String) :
    (translateText mr maxLen model ctxHash cache0 ms0 text src tgt).records.length =
        2 * (splitIntoChunks (normalizeText text) maxLen).length + 1 ∧
      ((translateText mr maxLen model ctxHash cache0 ms0 text src tgt).records.getLast?).map
          (fun r => r.stage) = some "completed" ∧
      (translateText mr maxLen model ctxHash cache0 ms0 text src tgt).drafts.length =
        (splitIntoChunks (normalizeText text) maxLen).length ∧
      (translateText mr maxLen model ctxHash cache0 ms0 text src tgt).finals.length =
        (splitIntoChunks (normalizeText text) maxLen).length := by
  simp only [translateText]
  set chunks := splitIntoChunks (normalizeText text) maxLen with hch
  set acc0 : Stage1Acc := ⟨[], cache0, ms0, []⟩ with hacc0
  set s1 := stage1Go mr model src tgt ctxHash (joinSep nl2 chunks) chunks.length
    0 chunks acc0 with hs1
  set acc2 : Stage2Acc := ⟨[], s1.cache, s1.ms, []⟩ with hacc2
  set s2 := stage2Go mr model src tgt ctxHash (joinSep nl2 chunks)
    (joinSep nl2 s1.drafts) chunks.length 0 (chunks.zip s1.drafts) acc2 with hs2
  obtain ⟨d1, r1⟩ := stage1Go_lengths mr model src tgt ctxHash (joinSep nl2 chunks)
    chunks.length chunks 0 acc0
  obtain ⟨f2, r2⟩ := stage2Go_lengths mr model src tgt ctxHash (joinSep nl2 chunks)
    (joinSep nl2 s1.drafts) chunks.length (chunks.zip s1.drafts) 0 acc2
  have hzip : (chunks.zip s1.drafts).length = chunks.length := by
    rw [List.length_zip, ← hs1] at *
    rw [d1]
    simp
  refine ⟨?_, ?_, ?_, ?_⟩
  · simp only [List.length_append, List.length_singleton]
    rw [← hs1] at r1
    rw [← hs2] at r2
    rw [r1, r2, hzip]
    simp [hacc0, hacc2]
    omega
  · rw [List.getLast?_concat]
    rfl
  · rw [← hs1] at d1
    rw [d1]
    simp [hacc0]
  · rw [← hs2] at f2
    rw [f2, hzip]
    simp [hacc2]

/-- A concrete two-chunk run in which every model call fails, so both
stage-1 chunks exhaust their retries (`maxRetries = 2`, four failing
responses, empty cache). -/
def c1run : RunResult :=
  translateText 2 5 "m" (fun _ => "h".data) []
    (List.replicate 4 (⟨false, [], "down".data⟩ : GenResponse))
    "One.\n\nTwo.".data "en" "es"

/-- **C1** counterexample to the claim as stated: in `c1run` the first
chunk's stage-1 translation exhausts all retries (its draft is the
`[TRANSLATION_FAILED: …]` sentinel), yet the orchestrator continues to the
second chunk and to stage 2, and emits a final `completed` record — the job
is never marked FAILED. -/
theorem c1_counterexample :
    c1run.drafts.map (fun d => startsWith d failSentinelPrefix) = [true, true] ∧
      c1run.records.map (fun r => r.stage) =
        ["primary_translation", "primary_translation", "reflection_improvement",
          "reflection_improvement", "completed"] ∧
      c1run.finals.map (fun d => startsWith d failSentinelPrefix) = [true, true] := by
  refine ⟨by decide, by decide, by decide⟩

/-! ## C2: stage-2 failure handling -/

/-- **C2** (amended).  In `BookTranslator._translate_chunk_stage2` a
validation failure is NOT retried: part 1 — the result is always either
the stage-1 draft or a model response that passed the validator (so a
stage-2 failure never aborts the job and the fallback draft is used
without re-validation); part 2 — a successful model response that fails
the validator makes the function return the draft immediately, leaving the
remaining retry budget and the remaining model responses unused. -/
theorem c2_stage2_fallback_behavior :
    (∀ (original draft : Chars) (src tgt : String) (n : Nat) (ms : ModelStream),
      (stage2Loop original draft src tgt n ms).1 = draft ∨
        isLikelyTranslated original (stage2Loop original draft src tgt n ms).1 src tgt
          = true) ∧
    (∀ (original draft : Chars) (src tgt : String) (n : Nat) (ms : ModelStream)
        (r : GenResponse),
      r.success = true → r.text ≠ [] →
      isLikelyTranslated original (cleanTranslationResponse r.text []) src tgt = false →
      stage2Loop original draft src tgt (n + 1) (r :: ms) = (draft, ms)) := by
  constructor
  · intro original draft src tgt n
    induction n with
    | zero => intro ms; left; rfl
    | succ n ih =>
      intro ms
      rw [stage2Loop]
      by_cases hc : ((popResponse ms).1.success = true ∧ (popResponse ms).1.text ≠ [])
      · rw [if_pos hc]
        by_cases hv : isLikelyTranslated original
            (cleanTranslationResponse (popResponse ms).1.text []) src tgt = true
        · rw [if_pos hv]
          exact Or.inr hv
        · rw [if_neg hv]
          exact Or.inl rfl
      · rw [if_neg hc]
        exact ih (popResponse ms).2
  · intro original draft src tgt n ms r hs ht hv
    rw [stage2Loop]
    have hp : popResponse (r :: ms) = (r, ms) := rfl
    rw [hp, if_pos ⟨hs, ht⟩, if_neg (by rw [hv]; simp)]

/-- The 54-character English original used in the stage-2 counterexample;
it is also used as the (invalid) stage-1 draft. -/
def c2orig : Chars := "The old house stood silent on the hill above the town.".data

/-- **C2** counterexample to the claim as stated: with two retries left
and a second response that would validate, a first response that fails
validation makes `_translate_chunk_stage2` return the draft at once — the
validation failure is not retried (the second response is left
unconsumed), and the fallback draft is used even though it fails the
validator itself. -/
theorem c2_counterexample :
    stage2Loop c2orig c2orig "en" "es" 2
        [⟨true, c2orig, []⟩, ⟨true, "La casa vieja.".data, []⟩] =
      (c2orig, [⟨true, "La casa vieja.".data, []⟩]) ∧
      isLikelyTranslated c2orig c2orig "en" "es" = false ∧
      isLikelyTranslated c2orig
        (cleanTranslationResponse "La casa vieja.".data []) "en" "es" = true := by
  refine ⟨by decide, by decide, by decide⟩

/-- Witness for `c2_stage2_fallback_behavior` (part 2) at a concrete
input. -/
theorem c2_witness :
    stage2Loop c2orig "borrador".data "en" "es" 1 [⟨true, c2orig, []⟩] =
      ("borrador".data, []) :=
  c2_stage2_fallback_behavior.2 c2orig "borrador".data "en" "es" 0 []
    ⟨true, c2orig, []⟩ rfl (by decide) (by decide)

/-! ## C3: cache-hit validation -/

/-- **C3** (amended).  In both stages an entry returned from the cache is
used only after re-checking: the sentinel test reads the entry's
`translated_text` field, and the validator is re-run on the value that
would be appended — in stage 1 that value is `machine_translation or
translated_text`, in stage 2 it is `translated_text`; an entry failing
either check is treated as a miss.  (As stated the claim fails for stage 1
because the sentinel test and the used value read different fields; see
the counterexample.) -/
theorem c3_cache_hit_validation (e : CacheEntry) (chunk : Chars) (src tgt : String) :
    (∀ v, stage1CacheHit (some e) chunk src tgt = some v →
        startsWith e.translated_text failSentinelPrefix = false ∧
        isLikelyTranslated chunk v src tgt = true ∧
        v = (if e.machine_translation ≠ [] then e.machine_translation
          else e.translated_text)) ∧
    (startsWith e.translated_text failSentinelPrefix = true →
      stage1CacheHit (some e) chunk src tgt = none) ∧
    (isLikelyTranslated chunk
        (if e.machine_translation ≠ [] then e.machine_translation else e.translated_text)
        src tgt = false → stage1CacheHit (some e) chunk src tgt = none) ∧
    (∀ v, stage2CacheHit (some e) chunk src tgt = some v →
        startsWith v failSentinelPrefix = false ∧
        isLikelyTranslated chunk v src tgt = true ∧ v = e.translated_text) ∧
    (startsWith e.translated_text failSentinelPrefix = true →
      stage2CacheHit (some e) chunk src tgt = none) ∧
    (isLikelyTranslated chunk e.translated_text src tgt = false →
      stage2CacheHit (some e) chunk src tgt = none) := by
  refine ⟨?_, ?_, ?_, ?_, ?_, ?_⟩
  · intro v hv
    simp only [stage1CacheHit] at hv
    by_cases hsent : startsWith e.translated_text failSentinelPrefix = true
    · rw [if_pos hsent] at hv; cases hv
    · rw [if_neg hsent] at hv
      by_cases hval : isLikelyTranslated chunk
          (if e.machine_translation ≠ [] then e.machine_translation
            else e.translated_text) src tgt = true
      · rw [if_pos hval] at hv
        obtain rfl := Option.some.inj hv
        exact ⟨by revert hsent; cases startsWith e.translated_text failSentinelPrefix <;>
          simp, hval, rfl⟩
      · rw [if_neg hval] at hv; cases hv
  · intro hsent
    simp only [stage1CacheHit]
    rw [if_pos hsent]
  · intro hval
    simp only [stage1CacheHit]
    by_cases hsent : startsWith e.translated_text failSentinelPrefix = true
    · rw [if_pos hsent]
    · rw [if_neg hsent, if_neg (by rw [hval]; simp)]
  · intro v hv
    simp only [stage2CacheHit] at hv
    by_cases hsent : startsWith e.translated_text failSentinelPrefix = true
    · rw [if_pos hsent] at hv; cases hv
    · rw [if_neg hsent] at hv
      by_cases hval : isLikelyTranslated chunk e.translated_text src tgt = true
      · rw [if_pos hval] at hv
        obtain rfl := Option.some.inj hv
        exact ⟨by revert hsent; cases startsWith e.translated_text failSentinelPrefix <;>
          simp, hval, rfl⟩
      · rw [if_neg hval] at hv; cases hv
  · intro hsent
    simp only [stage2CacheHit]
    rw [if_pos hsent]
  · intro hval
    simp only [stage2CacheHit]
    by_cases hsent : startsWith e.translated_text failSentinelPrefix = true
    · rw [if_pos hsent]
    · rw [if_neg hsent, if_neg (by rw [hval]; simp)]

/-- The cache entry of the C3 counterexample: a clean `translated_text`
but a sentinel `machine_translation`. -/
def c3entry : CacheEntry :=
  ⟨"La casa es muy vieja y bonita.".data, "[TRANSLATION_FAILED: x]".data⟩

/-- The C3 counterexample's seeded store, keyed for the chunk and language
pair below with empty context hash. -/
def c3store : CacheStore :=
  [(("The house is old.".data, "en", "es", "m_stage1", []), c3entry)]

/-- **C3** counterexample to the claim as stated: for a cached entry whose
`machine_translation` field starts with the failure sentinel while its
`translated_text` is clean, the stage-1 hit logic accepts the entry (the
sentinel test looks only at `translated_text`, and the 23-character
sentinel value passes the under-50 validator rule), and the orchestrator
appends the sentinel value as the chunk's draft instead of re-translating. -/
theorem c3_counterexample :
    stage1CacheHit (some c3entry) "The house is old.".data "en" "es" =
        some "[TRANSLATION_FAILED: x]".data ∧
      startsWith "[TRANSLATION_FAILED: x]".data failSentinelPrefix = true ∧
      (stage1Step 3 "m" "en" "es" (fun _ => []) "The house is old.".data 1 0
          "The house is old.".data ⟨[], c3store, [], []⟩).drafts =
        ["[TRANSLATION_FAILED: x]".data] := by
  refine ⟨by decide, by decide, by decide⟩

/-- Witness for `c3_cache_hit_validation` at a concrete entry that is
accepted. -/
theorem c3_witness :
    startsWith "Hola".data failSentinelPrefix = false ∧
      isLikelyTranslated "Hi".data "Hola".data "en" "es" = true ∧
      ("Hola".data : Chars) =
        (if ("Hola".data : Chars) ≠ [] then ("Hola".data : Chars)
          else ("Hola".data : Chars)) :=
  (c3_cache_hit_validation ⟨"Hola".data, "Hola".data⟩ "Hi".data "en" "es").1
    "Hola".data (by decide)

end BookTranslator
